import Mathlib

/-!
# Verification of the PWL Editor core

Shallow embedding of the PWL Editor's data model and algorithms
(`pwl_parser.py`, `services/formatting.py`, `pwl_formatting.py`,
`services/waveform_repair.py`, `services/insertion_service.py`,
`services/undo_history.py`, `generators/square.py`) over exact rational
arithmetic.  Machine floats are modelled as `ℚ`; Python's decimal string
formatting (`%g`, `%.Ng`) is modelled exactly, including its rounding to a
given number of significant digits, so that format/parse round trips keep
their real (lossy) behaviour.
-/

/-! ## Decimal arithmetic helpers -/

/-- `10^e` as a rational, for an integer exponent. -/
def pow10 (e : ℤ) : ℚ := (10 : ℚ) ^ e

/-- Round to the nearest integer, ties to even (Python's `round` and the
rounding used by `%g` formatting). -/
def roundHalfEven (q : ℚ) : ℤ :=
  if q - (⌊q⌋ : ℚ) < 1/2 then ⌊q⌋
  else if 1/2 < q - (⌊q⌋ : ℚ) then ⌊q⌋ + 1
  else if 2 ∣ ⌊q⌋ then ⌊q⌋ else ⌊q⌋ + 1

/-- The decimal exponent of `q`: the unique `e` with `10^e ≤ |q| < 10^(e+1)`
(meaningful for `q ≠ 0`).  Models `math.floor(math.log10(abs(q)))`. -/
def decExp (q : ℚ) : ℤ := Int.log 10 |q|

/-- Rounding of `q` to `p` significant decimal digits, as performed by
Python's `%.pg` formatting before rendering. -/
def gRound (p : ℕ) (q : ℚ) : ℚ :=
  if q = 0 then 0
  else
    let s : ℤ := decExp q - p + 1
    (roundHalfEven (q / pow10 s) : ℚ) * pow10 s

/-! ## String and character helpers

Python string primitives used by the sources, modelled over `List Char`. -/

/-- Digit value of a decimal digit character. -/
def digitVal (c : Char) : ℕ := c.toNat - '0'.toNat

/-- Split a character list into its maximal leading run of decimal digits and
the remainder. -/
def takeDigits : List Char → List Char × List Char
  | [] => ([], [])
  | c :: cs =>
    if c.isDigit then
      let (ds, rest) := takeDigits cs
      (c :: ds, rest)
    else ([], c :: cs)

/-- Numeric value of a list of decimal digit characters. -/
def digitsToNat (ds : List Char) : ℕ := ds.foldl (fun acc c => 10 * acc + digitVal c) 0

/-- Drop leading whitespace (Python `str.lstrip()`). -/
def dropWs : List Char → List Char
  | [] => []
  | c :: cs => if c.isWhitespace then dropWs cs else c :: cs

/-- Python `str.strip()`. -/
def stripWs (cs : List Char) : List Char := (dropWs ((dropWs cs.reverse).reverse))

/-- Python `str.lstrip('+')`: drop every leading `+`. -/
def lstripPlus : List Char → List Char
  | [] => []
  | c :: cs => if c = '+' then lstripPlus cs else c :: cs

/-- Maximal leading run of non-whitespace characters, and the remainder. -/
def takeNonWs : List Char → List Char × List Char
  | [] => ([], [])
  | c :: cs =>
    if c.isWhitespace then ([], c :: cs)
    else
      let (w, rest) := takeNonWs cs
      (c :: w, rest)

/-- Worker for `wordsOf`; the fuel argument (an upper bound on the number of
remaining characters) makes the recursion structural. -/
def wordsOfGo : ℕ → List Char → List (List Char)
  | 0, _ => []
  | _ + 1, [] => []
  | fuel + 1, c :: cs =>
    if c.isWhitespace then wordsOfGo fuel cs
    else
      let (w, rest) := takeNonWs cs
      (c :: w) :: wordsOfGo fuel rest

/-- Python `str.split()` on a character list: whitespace-separated words,
empty words dropped. -/
def wordsOf (cs : List Char) : List (List Char) := wordsOfGo cs.length cs

/-- Worker for `splitLines`: accumulate the current line in reverse. -/
def splitLinesGo : List Char → List Char → List (List Char)
  | [], acc => [acc.reverse]
  | c :: cs, acc => if c = '\n' then acc.reverse :: splitLinesGo cs [] else splitLinesGo cs (c :: acc)

/-- Python `str.splitlines()` (modelled for `\n` line endings). -/
def splitLines (cs : List Char) : List (List Char) :=
  if cs = [] then [] else splitLinesGo cs []

/-- Drop leading spaces only as the regexes' `\s*` does. -/
def dropRegexWs : List Char → List Char := dropWs

/-- Anchored match of `^(?:\+)?(\d+(?:\.\d+)?)\s*([...])(?:s)?$` against the
given admissible SI-suffix characters; returns the magnitude substring and
the matched suffix character.  Used by `parse_reference_style` and
`is_awkward_format` in both formatting modules. -/
def siMatchAnchored (pfxSet : List Char) (cs : List Char) : Option (List Char × Char) :=
  let cs1 := match cs with
    | '+' :: r => r
    | r => r
  let (ip, r1) := takeDigits cs1
  if ip = [] then none
  else
    let frac : Option (List Char × List Char) :=
      match r1 with
      | '.' :: r2 =>
        let (fp, r3) := takeDigits r2
        if fp = [] then none else some (ip ++ '.' :: fp, r3)
      | _ => some (ip, r1)
    match frac with
    | none => none
    | some (mag, r2) =>
      match dropRegexWs r2 with
      | p :: rest =>
        if pfxSet.contains p then
          match rest with
          | [] => some (mag, p)
          | ['s'] => some (mag, p)
          | _ => none
        else none
      | [] => none

/-- Anchored match of `^(?:\+)?(\d+(?:\.\d+)?)\s*[eE]\s*([+-]?\d+)$`;
returns the exponent substring (group 2). -/
def sciMatchAnchored (cs : List Char) : Option (List Char) :=
  let cs1 := match cs with
    | '+' :: r => r
    | r => r
  let (ip, r1) := takeDigits cs1
  if ip = [] then none
  else
    let frac : Option (List Char) :=
      match r1 with
      | '.' :: r2 =>
        let (fp, r3) := takeDigits r2
        if fp = [] then none else some r3
      | _ => some r1
    match frac with
    | none => none
    | some r2 =>
      match dropRegexWs r2 with
      | e :: r3 =>
        if e = 'e' ∨ e = 'E' then
          let r4 := dropRegexWs r3
          let (sign, r5) : List Char × List Char :=
            match r4 with
            | '+' :: r => (['+'], r)
            | '-' :: r => (['-'], r)
            | r => ([], r)
          let (ds, r6) := takeDigits r5
          if ds = [] ∨ r6 ≠ [] then none else some (sign ++ ds)
        else none
      | [] => none

/-! ## Decimal string parsing

Python `float(...)` on the token grammar actually used by the tool:
`[+-]? (digits [. digits?] | . digits) ([eE] [+-]? digits)?`. -/

/-- Exponent digits: the whole remainder must be a non-empty digit run. -/
def parseExpDigits (cs : List Char) : Option ℤ :=
  let (ds, rest) := takeDigits cs
  if ds = [] ∨ rest ≠ [] then none else some (digitsToNat ds : ℤ)

/-- Parse an optional exponent suffix `[eE][+-]?digits` that must consume the
whole remainder; returns the signed exponent. -/
def parseExpSuffix : List Char → Option ℤ
  | [] => some 0
  | c :: cs =>
    if c = 'e' ∨ c = 'E' then
      match cs with
      | '+' :: cs' => parseExpDigits cs'
      | '-' :: cs' => (parseExpDigits cs').map Neg.neg
      | cs' => parseExpDigits cs'
    else none

/-- Parse the unsigned mantissa-and-exponent part of a float literal into an
integer pair `(m, e)` representing `m * 10^e`. -/
def parseFloatBody (cs : List Char) : Option (ℤ × ℤ) :=
  let (ip, r1) := takeDigits cs
  match r1 with
  | '.' :: r2 =>
    let (fp, r3) := takeDigits r2
    if ip = [] ∧ fp = [] then none
    else
      match parseExpSuffix r3 with
      | some ex => some ((digitsToNat ip * 10 ^ fp.length + digitsToNat fp : ℕ), ex - fp.length)
      | none => none
  | _ =>
    if ip = [] then none
    else
      match parseExpSuffix r1 with
      | some ex => some ((digitsToNat ip : ℕ), ex)
      | none => none

/-- Integer-pair representation of Python `float(s)` on the grammar above
(whitespace-tolerant): the parsed value is `m * 10^e`. -/
def parseFloatRep (s : String) : Option (ℤ × ℤ) :=
  match stripWs s.toList with
  | '+' :: cs => parseFloatBody cs
  | '-' :: cs => (parseFloatBody cs).map (fun me => (-me.1, me.2))
  | cs => parseFloatBody cs

/-- Python `float(s)` as an exact rational. -/
def parseFloat (s : String) : Option ℚ :=
  (parseFloatRep s).map (fun me => (me.1 : ℚ) * pow10 me.2)

/-! ## Decimal string rendering (Python `%g` / `%.Ng`) -/

/-- Count of decimal digits of a natural number (`1` for `0`). -/
def digitCount (n : ℕ) : ℕ := (toString n).length

/-- Strip factors of ten from a mantissa, folding them into the exponent
(trailing-zero stripping of `%g`).  Structural recursion on a fuel argument
that bounds the number of strippable zeros. -/
def stripTens : ℕ → ℕ → ℤ → ℕ × ℤ
  | 0, m, s => (m, s)
  | _ + 1, 0, s => (0, s)
  | fuel + 1, m, s => if m % 10 = 0 then stripTens fuel (m / 10) (s + 1) else (m, s)

/-- Render the exponent part of a `%g` scientific form: always signed, at
least two digits (`1e-06`, `1e+10`). -/
def renderExp (e : ℤ) : String :=
  let a := e.natAbs
  let core := if a < 10 then "0" ++ toString a else toString a
  (if e < 0 then "-" else "+") ++ core

/-- Render digits `d₁d₂…dₖ` as `d₁.d₂…dₖ` (scientific-form mantissa). -/
def renderSciMantissa (m : ℕ) : String :=
  match (toString m).toList with
  | [] => "0"
  | d :: [] => String.mk [d]
  | d :: ds => String.mk (d :: '.' :: ds)

/-- Render `m * 10^s` (`m > 0`, `10 ∤ m`) in plain positional notation. -/
def renderFixed (m : ℕ) (s : ℤ) : String :=
  if 0 ≤ s then toString m ++ String.mk (List.replicate s.toNat '0')
  else
    let ds := (toString m).toList
    let k := (-s).toNat
    if k < ds.length then
      String.mk (ds.take (ds.length - k) ++ '.' :: ds.drop (ds.length - k))
    else
      "0." ++ String.mk (List.replicate (k - ds.length) '0') ++ String.mk ds

/-- Rendering core of `%.pg` for a non-negative rounded mantissa `m0` scaled
by `10^s`: strip trailing zeros, then use scientific notation when the
decimal exponent is `< -4` or `≥ p`, positional notation otherwise. -/
def sigFmtCore (p : ℕ) (m0 : ℕ) (s : ℤ) : String :=
  let e : ℤ := (digitCount m0 : ℤ) - 1 + s
  let (m, s') := stripTens m0 m0 s
  if e < -4 ∨ (p : ℤ) ≤ e then renderSciMantissa m ++ "e" ++ renderExp e
  else renderFixed m s'

/-- Python `f"{q:.pg}"`: round to `p` significant digits and render. -/
def sigFmt (p : ℕ) (q : ℚ) : String :=
  if q = 0 then "0"
  else
    (if q < 0 then "-" else "") ++
      sigFmtCore p (roundHalfEven (|q| / pow10 (decExp q - p + 1))).natAbs (decExp q - p + 1)

/-! ## `services/formatting.py`

String-level embedding of the formatting core used by the repair, insertion
and generator services. -/

namespace Fmt

/-- `SI_PREFIXES`, in Python dict insertion order (keys are strings, the
empty string denoting "no SI suffix"); multipliers are exact powers of ten. -/
def siTable : List (String × ℚ) :=
  [("f", pow10 (-15)), ("p", pow10 (-12)), ("n", pow10 (-9)), ("u", pow10 (-6)),
   ("m", pow10 (-3)), ("", 1), ("k", pow10 3), ("M", pow10 6), ("G", pow10 9)]

/-- Key lookup in `SI_PREFIXES` (`target in SI_PREFIXES` plus indexing). -/
def siLookup (p : String) : Option ℚ :=
  (siTable.find? (fun kv => kv.1 = p)).map Prod.snd

/-- The SI suffix character class `[fpnumkMG]` of the two regexes. -/
def siSuffixClass : List Char := ['f', 'p', 'n', 'u', 'm', 'k', 'M', 'G']

/-- `strip_trailing_zeros`. -/
def strip_trailing_zeros (s : String) : String :=
  if s.toList.contains '.' then
    String.mk ((((s.toList.reverse.dropWhile (· = '0'))).dropWhile (· = '.')).reverse)
  else s

/-- `_format_significant(value, digits)`. -/
def format_significant (value : ℚ) (digits : ℕ) : String :=
  if value = 0 then "0"
  else
    let formatted := sigFmt digits value
    if formatted.toList.contains 'e' ∨ formatted.toList.contains 'E' then formatted
    else if formatted.toList.contains '.' then strip_trailing_zeros formatted
    else formatted

/-- Python's `round(x, n)`: half-even rounding to `n` decimal places. -/
def roundTo (n : ℕ) (x : ℚ) : ℚ := (roundHalfEven (x * pow10 n) : ℚ) / pow10 n

/-- `f"{e:+d}"`: always-signed plain integer rendering. -/
def renderExpPlusD (e : ℤ) : String :=
  (if e < 0 then "-" else "+") ++ toString e.natAbs

/-- `_format_scientific(value, digits)`. -/
def format_scientific (value : ℚ) (digits : ℕ) : String :=
  if value = 0 then "0"
  else
    let negative := value < 0
    let absVal := |value|
    let expInt0 := decExp absVal
    let mantissa0 := absVal / pow10 expInt0
    let mantissa1 := roundTo (digits - 1) mantissa0
    let (mantissa2, expInt) :=
      if 10 ≤ mantissa1 then (mantissa1 / 10, expInt0 + 1) else (mantissa1, expInt0)
    let nearestInt := roundHalfEven mantissa2
    let mantissa3 :=
      if |mantissa2 - (nearestInt : ℚ)| ≤ pow10 (-(digits : ℤ) - 1) then (nearestInt : ℚ)
      else mantissa2
    let mantissaStr0 := strip_trailing_zeros (sigFmt (digits - 1) mantissa3)
    let (mantissaStr1, expInt') :=
      if mantissaStr0 = "10" ∨ mantissaStr0 = "+10" then ("1", expInt + 1)
      else if mantissaStr0 = "-10" then ("-1", expInt + 1)
      else (mantissaStr0, expInt)
    let mantissaStr2 :=
      if mantissaStr1 = "" ∨ mantissaStr1 = "0" ∨ mantissaStr1 = "-0" then "0" else mantissaStr1
    let mantissaStr3 :=
      if negative ∧ mantissaStr2 ≠ "0" ∧ mantissaStr2.toList.head? ≠ some '-' then
        "-" ++ mantissaStr2
      else mantissaStr2
    mantissaStr3 ++ "e" ++ renderExpPlusD expInt'

/-- `format_engineering(value, thresholds, force)` with the default
thresholds `(1e-4, 1e4)` and `EPSILON = 1e-10`. -/
def format_engineering (value : ℚ) (force : Bool := false) : String :=
  if value = 0 then "0"
  else
    let absVal := |value|
    if force ∨ pow10 4 ≤ absVal ∨ absVal < pow10 (-4) then
      let exponent := decExp absVal
      let steppedExp := exponent.fdiv 3 * 3
      let mantissa := value / pow10 steppedExp
      let mantissaStr :=
        if |mantissa - (roundHalfEven mantissa : ℚ)| < pow10 (-10) then
          toString (roundHalfEven mantissa)
        else sigFmt 6 mantissa
      if steppedExp = 0 then mantissaStr
      else mantissaStr ++ "e" ++ toString steppedExp
    else strip_trailing_zeros (sigFmt 9 value)

/-- One fold step of the best-suffix search: keep the candidate with the
strictly smaller score (first wins on ties, as Python's running comparison
does). -/
def bestStep (keep : String × ℚ → Option ℚ) (best : Option (ℚ × String × ℚ))
    (kv : String × ℚ) : Option (ℚ × String × ℚ) :=
  match keep kv with
  | none => best
  | some score =>
    match best with
    | none => some (score, kv)
    | some b => if score < b.1 then some (score, kv) else best

/-- `_best_si_for(value)` (services version): prefer a converted magnitude in
`[1, 1000)` scored by distance from `1`; fall back to `[0.1, 9999]`; fall
back to no suffix. -/
def best_si_for (value : ℚ) : String × ℚ :=
  if value = 0 then ("", 1)
  else
    let firstPass := siTable.foldl
      (bestStep fun kv =>
        let conv := |value / kv.2|
        if 1 ≤ conv ∧ conv < 1000 then some |conv - 1| else none) none
    match firstPass with
    | some (_, kv) => kv
    | none =>
      let secondPass := siTable.foldl
        (bestStep fun kv =>
          let conv := |value / kv.2|
          if 1/10 ≤ conv ∧ conv ≤ 9999 then some |conv - 1| else none) none
      match secondPass with
      | some (_, kv) => kv
      | none => ("", 1)

/-- `_format_with_prefix(converted, p)` inside `format_si`: integer form when
within `1e-6` of an integer (`math.isclose` with `abs_tol=1e-6`), else a
12-significant-digit rendering. -/
def format_with_suffix (converted : ℚ) (p : String) : String :=
  let nearest := roundHalfEven converted
  if |converted - (nearest : ℚ)| ≤ pow10 (-6) then toString nearest ++ p
  else format_significant converted 12 ++ p

/-- `format_si(value, target)` (services version). -/
def format_si (value : ℚ) (target : Option String := none) : String :=
  if value = 0 then "0"
  else
    match target with
    | some p =>
      match siLookup p with
      | some mult => format_with_suffix (value / mult) p
      | none =>
        let (p', mult) := best_si_for value
        format_with_suffix (value / mult) p'
    | none =>
      let (p', mult) := best_si_for value
      format_with_suffix (value / mult) p'

/-- `is_awkward_format(s)`. -/
def is_awkward_format (s : String) : Bool :=
  let cs := stripWs s.toList
  let largeSi :=
    match siMatchAnchored siSuffixClass cs with
    | some (mag, _) =>
      match parseFloat (String.mk mag) with
      | some magnitude => if 10000 ≤ magnitude then true else false
      | none => false
    | none => false
  if largeSi then true
  else if cs.contains '.' ∧ ¬ (cs.contains 'e' ∨ cs.contains 'E') then
    if 8 < (cs.filter Char.isDigit).length then true else false
  else false

/-- `suggest_better_si(value)`. -/
def suggest_better_si (value : ℚ) : String := format_si value

/-- `suggest_optimal(value)` for a non-negative argument. -/
def suggest_optimal_nonneg (value : ℚ) : String :=
  if value = 0 then "0"
  else if value < pow10 (-9) then strip_trailing_zeros (sigFmt 9 (value / pow10 (-12))) ++ "p"
  else if value < pow10 (-6) then strip_trailing_zeros (sigFmt 9 (value / pow10 (-9))) ++ "n"
  else if value < pow10 (-3) then strip_trailing_zeros (sigFmt 9 (value / pow10 (-6))) ++ "u"
  else if value < 1 then strip_trailing_zeros (sigFmt 9 (value / pow10 (-3))) ++ "m"
  else if value < 1000 then strip_trailing_zeros (sigFmt 9 value)
  else strip_trailing_zeros (sigFmt 9 (value / pow10 3)) ++ "k"

/-- `suggest_optimal(value)` (services version; negative values recurse on
the absolute value behind a minus sign). -/
def suggest_optimal (value : ℚ) : String :=
  if value < 0 then "-" ++ suggest_optimal_nonneg (-value) else suggest_optimal_nonneg value

/-- Reference-string styles recognised by `parse_reference_style`. -/
inductive RefStyle where
  | si (p : Char)
  | sci (expStr : List Char)
  | zero
  | decimal
deriving DecidableEq, Repr

/-- `parse_reference_style(reference)` (services version, which also maps
zero-valued SI/scientific/decimal references to the `zero` style). -/
def parse_reference_style (reference : String) : RefStyle :=
  let ref := stripWs reference.toList
  if ref = [] then .decimal
  else if ref = ['0'] then .zero
  else
    match siMatchAnchored siSuffixClass ref with
    | some (mag, p) =>
      match parseFloat (String.mk mag) with
      | some magnitude => if magnitude = 0 then .zero else .si p
      | none => .si p
    | none =>
      match sciMatchAnchored ref with
      | some expStr =>
        match parseFloat (String.mk ref) with
        | some v => if v = 0 then .zero else .sci expStr
        | none => .sci expStr
      | none =>
        match parseFloat (String.mk ref) with
        | some v => if v = 0 then .zero else .decimal
        | none => .decimal

/-- `format_like_reference(value, reference)` (services version). -/
def format_like_reference (value : ℚ) (reference : String) : String :=
  match parse_reference_style reference with
  | .si p => format_si value (some (String.mk [p]))
  | .sci _ => format_scientific value 12
  | .zero => suggest_optimal value
  | .decimal =>
    let s := sigFmt 6 value
    if is_awkward_format s then suggest_better_si value else s

/-- `FormatService.format_time(value, reference_point)`: the reference point
is abstracted to its optional `time_str`. -/
def format_time (value : ℚ) (ref : Option String) : String :=
  match ref with
  | some r => format_like_reference value r
  | none => suggest_optimal value

/-- `FormatService.format_value(value, reference_point)`. -/
def format_value (value : ℚ) (ref : Option String) : String :=
  match ref with
  | some r => format_like_reference value r
  | none => suggest_optimal value

end Fmt

/-! ## `pwl_formatting.py`

The older, parallel formatting module.  Its `SI_PREFIXES` table is textually
identical to the services one, but `_best_si_for` and `format_si` differ. -/

namespace PwlFmt

/-- First table entry whose multiplier equals the given value (the
`abs(math.log10(m) - exp) < 1e-9` scan of the fallback branch, which for
exact powers of ten is an exact multiplier match). -/
def lookupByMult : List (String × ℚ) → ℚ → Option (String × ℚ)
  | [], _ => none
  | kv :: rest, m => if kv.2 = m then some kv else lookupByMult rest m

/-- `_best_si_for(value)` (pwl_formatting version): gather every suffix whose
converted magnitude lies in `[0.1, 9999]`, scored by distance from `1000`;
with no candidate fall back to the closest power-of-1000 suffix. -/
def best_si_for (value : ℚ) : String × ℚ :=
  let candidates := Fmt.siTable.filterMap (fun kv =>
    let conv := value / kv.2
    if 1/10 ≤ |conv| ∧ |conv| ≤ 9999 then some (kv, |(|conv| - 1000)|) else none)
  match candidates with
  | [] =>
    if value = 0 then ("", 1)
    else
      let exp := (decExp value).fdiv 3 * 3
      match lookupByMult Fmt.siTable (pow10 exp) with
      | some kv => kv
      | none => ("", 1)
  | c :: cs =>
    let best := cs.foldl (fun b x => if x.2 < b.2 then x else b) c
    best.1

/-- `format_si(value, target)` (pwl_formatting version): integer form when
within `EPSILON = 1e-10` of an integer, else a 6-significant-digit `%g`
rendering. -/
def format_si (value : ℚ) (target : Option String := none) : String :=
  if value = 0 then "0"
  else
    let render := fun (converted : ℚ) (p : String) =>
      if |converted - (roundHalfEven converted : ℚ)| < pow10 (-10) then
        toString (roundHalfEven converted) ++ p
      else sigFmt 6 converted ++ p
    match target with
    | some p =>
      match Fmt.siLookup p with
      | some mult => render (value / mult) p
      | none =>
        let (p', mult) := best_si_for value
        render (value / mult) p'
    | none =>
      let (p', mult) := best_si_for value
      render (value / mult) p'

end PwlFmt

/-! ## `pwl_parser.py` -/

namespace Pwl

/-- Power-of-ten exponent of an SI suffix character recognised by the
generic SI parser. -/
def siPfxExp (c : Char) : ℤ :=
  if c = 'f' then -15
  else if c = 'p' then -12
  else if c = 'n' then -9
  else if c = 'm' then -3
  else if c = 'k' then 3
  else if c = 'M' then 6
  else if c = 'G' then 9
  else 0

/-- Multiplier of an SI suffix character recognised by the generic SI parser. -/
def siPfxMult (c : Char) : ℚ := pow10 (siPfxExp c)

/-- Modelled from the spec: the external `si_prefix.si_parse` library
function, which is not part of this repository.  Per the spec it parses a
bare float or an SI-suffixed float (and exponent forms); per the source
comment in `ltspice_si_parse` it does not recognise a plain `u` suffix, so
`u` is excluded here.  Failure is an exception in Python, modelled as
`none`. -/
def si_parse (s : String) : Option ℚ :=
  let cs := stripWs s.toList
  match parseFloat (String.mk cs) with
  | some v => some v
  | none =>
    match cs.getLast? with
    | some c =>
      if ['f', 'p', 'n', 'm', 'k', 'M', 'G'].contains c then
        (parseFloat (String.mk cs.dropLast)).map (fun v => v * siPfxMult c)
      else none
    | none => none

/-- `ltspice_si_parse(value_str)`: strip leading `+`, special-case a
trailing `u` as microseconds, otherwise defer to `si_parse`.  A `none`
result models the `ValueError` that `si_parse` raises. -/
def ltspice_si_parse (s : String) : Option ℚ :=
  let clean := lstripPlus s.toList
  if clean.getLast? = some 'u' then
    match parseFloat (String.mk clean.dropLast) with
    | some v => some (v * pow10 (-6))
    | none => si_parse (String.mk clean)
  else si_parse (String.mk clean)

/-- Integer-pair form of `si_parse` (value `m * 10^e`), used to evaluate
concrete parses. -/
def si_parseRep (s : String) : Option (ℤ × ℤ) :=
  let cs := stripWs s.toList
  match parseFloatRep (String.mk cs) with
  | some me => some me
  | none =>
    match cs.getLast? with
    | some c =>
      if ['f', 'p', 'n', 'm', 'k', 'M', 'G'].contains c then
        (parseFloatRep (String.mk cs.dropLast)).map (fun me => (me.1, me.2 + siPfxExp c))
      else none
    | none => none

/-- Integer-pair form of `ltspice_si_parse` (value `m * 10^e`). -/
def ltspiceRep (s : String) : Option (ℤ × ℤ) :=
  let clean := lstripPlus s.toList
  if clean.getLast? = some 'u' then
    match parseFloatRep (String.mk clean.dropLast) with
    | some me => some (me.1, me.2 - 6)
    | none => si_parseRep (String.mk clean)
  else si_parseRep (String.mk clean)

/-- `PwlPoint`: original strings, the relative flag, and the cached numeric
values computed by `_compute_values`. -/
structure PwlPoint where
  time_str : String
  value_str : String
  is_relative : Bool
  time_value : ℚ
  value_value : ℚ
deriving DecidableEq, Repr

/-- The cached time value: `ltspice_si_parse` on the `+`-stripped time
string, with the bare `except` clause mapping failure to `0.0`. -/
def computeTimeValue (t : String) : ℚ :=
  (ltspice_si_parse (String.mk (lstripPlus t.toList))).getD 0

/-- The cached value: `ltspice_si_parse` on the value string, with the bare
`except` clause mapping failure to `0.0`. -/
def computeValueValue (v : String) : ℚ :=
  (ltspice_si_parse v).getD 0

/-- `PwlPoint.__init__(time_str, value_str, is_relative)`: strings are
stripped, cached values computed; never raises. -/
def mkPwlPoint (t v : String) (rel : Bool) : PwlPoint :=
  let ts := String.mk (stripWs t.toList)
  let vs := String.mk (stripWs v.toList)
  { time_str := ts, value_str := vs, is_relative := rel,
    time_value := computeTimeValue ts, value_value := computeValueValue vs }

/-- `PwlPoint.update_time_str`: strip, store, recompute both cached values. -/
def updateTimeStr (p : PwlPoint) (newT : String) : PwlPoint :=
  let ts := String.mk (stripWs newT.toList)
  { p with
      time_str := ts
      time_value := computeTimeValue ts
      value_value := computeValueValue p.value_str }

/-- `PwlPoint.update_value_str`. -/
def updateValueStr (p : PwlPoint) (newV : String) : PwlPoint :=
  let vs := String.mk (stripWs newV.toList)
  { p with
      value_str := vs
      time_value := computeTimeValue p.time_str
      value_value := computeValueValue vs }

/-- `PwlPoint.get_absolute_time(previous_absolute_time)`. -/
def pointAbsTime (p : PwlPoint) (prevAbs : ℚ) : ℚ :=
  if p.is_relative then prevAbs + p.time_value else p.time_value

/-- Running absolute times from a given accumulator (the body of the
`timestamps` property). -/
def absTimesFrom (cur : ℚ) : List PwlPoint → List ℚ
  | [] => []
  | p :: ps =>
    let t := pointAbsTime p cur
    t :: absTimesFrom t ps

/-- `PwlData`: the point list plus the default-format hint.  The lazy
discretisation cache and `timestep` are omitted: they are derived preview
state that none of the verified operations observe. -/
structure PwlData where
  points : List PwlPoint
  default_format : String := "relative"
deriving Repr

/-- The `timestamps` property: running absolute times. -/
def timestamps (d : PwlData) : List ℚ := absTimesFrom 0 d.points

/-- `get_absolute_time(index)`: `0.0` out of bounds, else the running sum up
to and including `index`. -/
def absTimeAt (pts : List PwlPoint) (index : ℕ) : ℚ :=
  if index < pts.length then ((absTimesFrom 0 pts).getD index 0) else 0

/-- `clear()`. -/
def clear (d : PwlData) : PwlData := { d with points := [] }

/-- Insertion position of `add_point`: the length of the maximal prefix of
existing absolute times that are strictly below the candidate time (the
`for`/`break` loop). -/
def insertPos (ts : List ℚ) (a : ℚ) : ℕ :=
  match ts with
  | [] => 0
  | t :: rest => if a > t then insertPos rest a + 1 else 0

/-- `add_point(time_str, value_str, is_relative)` (string arguments; the
numeric-coercion branch for `int`/`float` arguments is not modelled). -/
def add_point (d : PwlData) (time_str value_str : String) (is_rel? : Option Bool) : PwlData :=
  let isRel0 : Bool :=
    match is_rel? with
    | some b => b
    | none => if d.points ≠ [] ∧ d.default_format = "relative" then true else false
  let time_val : ℚ := (ltspice_si_parse (String.mk (lstripPlus time_str.toList))).getD 0
  let (is_rel, abs_time) : Bool × ℚ :=
    if isRel0 = true ∧ d.points ≠ [] then
      (true, absTimeAt d.points (d.points.length - 1) + time_val)
    else (false, time_val)
  let new_point := mkPwlPoint time_str value_str is_rel
  let pos := insertPos (absTimesFrom 0 d.points) abs_time
  { d with points := d.points.insertIdx pos new_point }

/-- `remove_point(index)`. -/
def remove_point (d : PwlData) (index : ℕ) : PwlData :=
  if index < d.points.length then { d with points := d.points.eraseIdx index } else d

/-- One iteration of the `_recalculate_relative_times` loop at index `i`:
re-derive a relative point's delta text from the current state of the list
(`f"{delta:.9g}"`), leaving other points alone. -/
def recalcStep (pts : List PwlPoint) (i : ℕ) : List PwlPoint :=
  match pts.get? i with
  | some p =>
    if p.is_relative then
      let prevAbs := absTimeAt pts (i - 1)
      let currAbs := absTimeAt pts i
      let delta := currAbs - prevAbs
      pts.set i (updateTimeStr p (sigFmt 9 delta))
    else pts
  | none => pts

/-- `_recalculate_relative_times()`: force index 0 absolute (flag only, no
recompute), then rewrite each relative point's delta text in index order. -/
def recalculate_relative_times (pts : List PwlPoint) : List PwlPoint :=
  match pts with
  | [] => []
  | p :: rest =>
    let pts0 := { p with is_relative := false } :: rest
    (List.range' 1 rest.length).foldl recalcStep pts0

/-- `_sort_by_time()`: stable sort of `(absolute_time, point)` pairs by
time (Python's stable `list.sort(key=...)`, modelled by the stable
`insertionSort`), then relative-delta re-derivation. -/
def sort_by_time (d : PwlData) : PwlData :=
  let pairs := (timestamps d).zip d.points
  let sorted := List.insertionSort (fun a b => a.1 ≤ b.1) pairs
  { d with points := recalculate_relative_times (sorted.map Prod.snd) }

/-- The sort key relation of `_sort_by_time` (compare pairs by absolute
time) is total and transitive, as `List.sorted_insertionSort` requires. -/
instance : IsTotal (ℚ × PwlPoint) (fun a b => a.1 ≤ b.1) :=
  ⟨fun a b => le_total a.1 b.1⟩

instance : IsTrans (ℚ × PwlPoint) (fun a b => a.1 ≤ b.1) :=
  ⟨fun _ _ _ => le_trans⟩

/-- Outcome of `load_from_text`: `ok`/`failed` are the `True`/`False`
returns, `raised` is the `ValueError` that an unparseable numeric token
makes `ltspice_si_parse` propagate.  The payload is the state of
`self.points` when control leaves the method. -/
inductive LoadOutcome where
  | ok (pts : List PwlPoint)
  | failed (pts : List PwlPoint)
  | raised (pts : List PwlPoint)
deriving DecidableEq, Repr

/-- The per-line loop of `load_from_text`. -/
def loadLinesGo (time_last : ℚ) (acc : List PwlPoint) : List (List Char) → LoadOutcome
  | [] => if acc = [] then .failed acc else .ok acc
  | line :: rest =>
    match wordsOf line with
    | [] => loadLinesGo time_last acc rest
    | [a0, a1] =>
      match ltspice_si_parse (String.mk a0) with
      | none => .raised acc
      | some time_read =>
        let isRel := a0.head? = some '+'
        let ots := if isRel then String.mk (lstripPlus a0) else String.mk a0
        let point := mkPwlPoint ots (String.mk a1) isRel
        let time_made := if isRel then time_last + time_read else time_read
        loadLinesGo time_made (acc ++ [point]) rest
    | _ => .failed acc

/-- `load_from_text(pwl_text)`: clears the document first, then parses line
by line, appending points as it goes. -/
def load_from_text (_d : PwlData) (text : String) : LoadOutcome :=
  let lines := splitLines text.toList
  if lines = [] then .failed []
  else loadLinesGo 0 [] lines

/-- The document's point list after a `load_from_text` call (the payload of
the outcome: the initial points are cleared up front). -/
def LoadOutcome.pts : LoadOutcome → List PwlPoint
  | .ok pts => pts
  | .failed pts => pts
  | .raised pts => pts

/-- A line is numerically safe for `load_from_text` when, if it splits into
exactly two tokens, the time token parses under `ltspice_si_parse` (the one
call the method leaves unprotected). -/
def lineNumericOk (line : List Char) : Bool :=
  match wordsOf line with
  | [a0, _] => (ltspice_si_parse (String.mk a0)).isSome
  | _ => true

end Pwl

/-! ## `services/waveform_repair.py` -/

namespace Repair

/-- Maximum of a value list (`max(group_values)`). -/
def maxQ : List ℚ → ℚ
  | [] => 0
  | x :: xs => xs.foldl max x

/-- Minimum of a value list (`min(group_values)`). -/
def minQ : List ℚ → ℚ
  | [] => 0
  | x :: xs => xs.foldl min x

/-- The three spreading strategies of `repair_duplicates` (the `none` and
`remove` strategies never reach `_spread_group`; the legacy aliases
`distribute`/`minimum_slew` normalise to `shift_right`). -/
inductive DupStrategy where
  | center
  | shift_right
  | shift_left
deriving DecidableEq, Repr

/-- The strategy-specific window placement of `_spread_group`
(`window_start`/`window_end` before the degenerate-window and deficit
fix-ups).  `min_start`/`max_end` are the clamp bounds already derived from
the neighbours and the tolerance. -/
def spreadWindow (strategy : DupStrategy) (target_span : ℚ)
    (min_start : Option ℚ) (origin : ℚ) (max_end : Option ℚ) : ℚ × ℚ :=
  match strategy with
  | .shift_left =>
    let we1 :=
      match max_end with
      | some me => min origin me
      | none => origin
    let ws1 := we1 - target_span
    (match min_start with
      | some ms => if ws1 < ms then (ms, ms + target_span) else (ws1, we1)
      | none => (ws1, we1))
  | .center =>
    let ws1 := origin - target_span / 2
    let we1 := ws1 + target_span
    let (ws2, we2) :=
      match min_start with
      | some ms => if ws1 < ms then (ws1 + (ms - ws1), we1 + (ms - ws1)) else (ws1, we1)
      | none => (ws1, we1)
    (match max_end with
      | some me => if we2 > me then (ws2 - (we2 - me), we2 - (we2 - me)) else (ws2, we2)
      | none => (ws2, we2))
  | .shift_right =>
    let ws1 :=
      match min_start with
      | some ms => if origin < ms then ms else origin
      | none => origin
    let we1 := ws1 + target_span
    (match max_end with
      | some me => if we1 > me then (me - target_span, me) else (ws1, we1)
      | none => (ws1, we1))

/-- The degenerate-window and deficit fix-ups of `_spread_group`: from the
placed window `w`, the final `(window_start, span)` pair.  A collapsed
window is re-opened to `min_span`; a span deficit moves `window_start`
following the strategy (the Python mutations of `window_start`/`window_end`
expressed through the resulting start and span). -/
def spreadSpan (strategy : DupStrategy) (min_span : ℚ) (w : ℚ × ℚ) : ℚ × ℚ :=
  let we2 := if w.2 ≤ w.1 then w.1 + min_span else w.2
  let span0 := we2 - w.1
  let wsF :=
    if span0 < min_span then
      match strategy with
      | .shift_left => w.1 - (min_span - span0)
      | .shift_right => w.1
      | .center => w.1 - (min_span - span0) / 2
    else w.1
  let span := if span0 < min_span then min_span else span0
  (wsF, span)

/-- `_spread_group`, as a function of the quantities the source reads from
the timestamp/value arrays: the previous neighbour's timestamp (when
`start_idx > 0`), the group's shared timestamp `origin`, the next
neighbour's timestamp (when one exists), and the group's values.  Returns
the group's new timestamps `window_start + spacing * offset`. -/
def spread_group (strategy : DupStrategy) (max_slew_rate time_tolerance : ℚ)
    (prev? : Option ℚ) (origin : ℚ) (next? : Option ℚ)
    (group_values : List ℚ) : List ℚ :=
  let count := group_values.length
  if count < 2 then List.replicate count origin
  else
    let value_span := maxQ group_values - minQ group_values
    let slew_span := if value_span ≠ 0 then value_span / max_slew_rate else 0
    let min_span := time_tolerance * ((count : ℚ) - 1)
    let target_span := max slew_span min_span
    let base_min_start : Option ℚ := prev?.map (· + time_tolerance)
    let min_start : Option ℚ :=
      match strategy with
      | .shift_left => base_min_start
      | _ => some (base_min_start.getD origin)
    let max_end : Option ℚ := next?.map (· - time_tolerance)
    let w0 := spreadWindow strategy target_span min_start origin max_end
    let fs := spreadSpan strategy min_span w0
    let spacing := fs.2 / ((count : ℚ) - 1)
    (List.range count).map (fun j : ℕ => fs.1 + spacing * (j : ℚ))

/-- Worker for `find_time_reversals`: adjacent pairs with a strict decrease
beyond `time_epsilon`, each reported as an index pair. -/
def reversalsAux (eps : ℚ) : ℕ → List ℚ → List (ℕ × ℕ)
  | _, [] => []
  | _, [_] => []
  | i, a :: b :: rest =>
    (if a > b + eps then [(i, i + 1)] else []) ++ reversalsAux eps (i + 1) (b :: rest)

/-- `WaveformAnalyzer.find_time_reversals()` over a timestamp list. -/
def find_time_reversals (eps : ℚ) (ts : List ℚ) : List (ℕ × ℕ) :=
  if ts.length < 2 then [] else reversalsAux eps 0 ts

/-- The `sorted(((t, i) ...), key=...)` step of `repair_time_reversals`
(stable sort of `(time, point)` pairs by time). -/
def sortedPairs (d : Pwl.PwlData) : List (ℚ × Pwl.PwlPoint) :=
  List.insertionSort (fun a b => a.1 ≤ b.1) ((Pwl.timestamps d).zip d.points)

/-- Worker for `_rebuild_data`: rebuild each point's time text from its
intended absolute time, tracking the enumeration index and the previous
intended time. -/
def rebuildGo : ℕ → ℚ → List (Pwl.PwlPoint × ℚ) → List Pwl.PwlPoint
  | _, _, [] => []
  | idx, prevTime, (p, t) :: rest =>
    let newPoint :=
      if idx = 0 ∨ p.is_relative = false then
        Pwl.mkPwlPoint (Fmt.format_time t (some p.time_str)) p.value_str false
      else
        Pwl.mkPwlPoint (Fmt.format_time (max (t - prevTime) 0) (some p.time_str)) p.value_str true
    newPoint :: rebuildGo (idx + 1) t rest

/-- `_rebuild_data(points, absolute_times)` (callers always pass lists of
equal length; the defensive length-mismatch `ValueError` is not modelled). -/
def rebuild_data (d : Pwl.PwlData) (pts : List Pwl.PwlPoint) (ts : List ℚ) : Pwl.PwlData :=
  if pts = [] then { d with points := [] }
  else { d with points := rebuildGo 0 0 (pts.zip ts) }

/-- `repair_time_reversals(strategy="sort")`: return the source unchanged
when no reversal is detected, else stably sort the `(time, point)` pairs and
rebuild the document's texts. -/
def repair_time_reversals_sort (d : Pwl.PwlData) (eps : ℚ) : Pwl.PwlData :=
  if find_time_reversals eps (Pwl.timestamps d) = [] then d
  else
    let pairs := sortedPairs d
    rebuild_data d (pairs.map Prod.snd) (pairs.map Prod.fst)

end Repair

/-! ## `services/insertion_service.py` -/

namespace Ins

/-- `SmartInsertion.si_prefixes`: the shared table restricted to
`p n u m k M G`. -/
def siPfxValue (c : Char) : ℚ :=
  if c = 'p' then pow10 (-12)
  else if c = 'n' then pow10 (-9)
  else if c = 'u' then pow10 (-6)
  else if c = 'm' then pow10 (-3)
  else if c = 'k' then pow10 3
  else if c = 'M' then pow10 6
  else if c = 'G' then pow10 9
  else 1

/-- Attempt of the end-anchored search `(\d+(?:\.\d+)?)\s*([class])(?:s)?$`
at the current position: the whole remainder must match. -/
def insSiAttempt (pfxSet : List Char) (cs : List Char) : Option (List Char × Char) :=
  let (ip, r1) := takeDigits cs
  if ip = [] then none
  else
    let frac : Option (List Char × List Char) :=
      match r1 with
      | '.' :: r2 =>
        let (fp, r3) := takeDigits r2
        if fp = [] then none else some (ip ++ '.' :: fp, r3)
      | _ => some (ip, r1)
    match frac with
    | none => none
    | some (mag, r2) =>
      match dropRegexWs r2 with
      | p :: rest =>
        if pfxSet.contains p ∧ (rest = [] ∨ rest = ['s']) then some (mag, p) else none
      | [] => none

/-- `re.search` with the end-anchored SI pattern: leftmost position whose
suffix matches. -/
def insSiSearch (pfxSet : List Char) : List Char → Option (List Char × Char)
  | [] => none
  | c :: cs =>
    match insSiAttempt pfxSet (c :: cs) with
    | some r => some r
    | none => insSiSearch pfxSet cs

/-- Attempt of the unanchored search `(\d+(?:\.\d+)?)\s*e\s*([+-]?\d+)` at
the current position (a match may leave trailing characters). -/
def insSciAttempt (cs : List Char) : Option (List Char × ℤ) :=
  let (ip, r1) := takeDigits cs
  if ip = [] then none
  else
    let frac : Option (List Char × List Char) :=
      match r1 with
      | '.' :: r2 =>
        let (fp, r3) := takeDigits r2
        if fp = [] then none else some (ip ++ '.' :: fp, r3)
      | _ => some (ip, r1)
    match frac with
    | none => none
    | some (mant, r2) =>
      match dropRegexWs r2 with
      | 'e' :: r3 =>
        let r4 := dropRegexWs r3
        let (neg, r5) : Bool × List Char :=
          match r4 with
          | '+' :: r => (false, r)
          | '-' :: r => (true, r)
          | r => (false, r)
        let (eds, _) := takeDigits r5
        if eds = [] then none
        else some (mant, if neg then -(digitsToNat eds : ℤ) else (digitsToNat eds : ℤ))
      | _ => none

/-- `re.search` with the unanchored scientific pattern. -/
def insSciSearch : List Char → Option (List Char × ℤ)
  | [] => none
  | c :: cs =>
    match insSciAttempt (c :: cs) with
    | some r => some r
    | none => insSciSearch cs

/-- The step-size SI character class `[numkMG]`. -/
def stepSiClass : List Char := ['n', 'u', 'm', 'k', 'M', 'G']

/-- `_determine_consistent_step_size(time_str, time_val)`. -/
def step_size (time_str : String) (time_val : ℚ) : ℚ :=
  let cs := stripWs time_str.toList
  match insSiSearch stepSiClass cs with
  | some (mag, p) =>
    let magnitude := (parseFloat (String.mk mag)).getD 0
    let stepMag : ℚ :=
      if magnitude < 10 then 1
      else if magnitude < 100 then 10
      else if magnitude < 500 then 50
      else 100
    stepMag * siPfxValue p
  | none =>
    match insSciSearch cs with
    | some (mant, ex) =>
      let mantissa := (parseFloat (String.mk mant)).getD 0
      let stepMant : ℚ := if mantissa < 2 then 1 else if mantissa < 10 then 1 else 10
      stepMant * pow10 ex
    | none =>
      if time_val = 0 then pow10 (-6)
      else if time_val < pow10 (-6) then pow10 (-9)
      else if time_val < pow10 (-3) then pow10 (-6)
      else if time_val < 1 then pow10 (-3)
      else 1/10

/-- `_try_format_like_reference(time_val, reference_str)`. -/
def try_format_like_ref (time_val : ℚ) (reference_str : String) : String :=
  match insSiSearch stepSiClass (stripWs reference_str.toList) with
  | some (_, p) =>
    let conv := time_val / siPfxValue p
    if |conv - (roundHalfEven conv : ℚ)| < pow10 (-10) then
      toString (roundHalfEven conv) ++ String.mk [p]
    else sigFmt 6 conv ++ String.mk [p]
  | none => sigFmt 6 time_val

/-- `_format_time_like_reference(time_val, reference_str)`. -/
def format_time_like_ref (time_val : ℚ) (reference_str : String) : String :=
  let ref := stripWs reference_str.toList
  match insSiSearch stepSiClass ref with
  | some (_, p) =>
    let conv := time_val / siPfxValue p
    if |conv - (roundHalfEven conv : ℚ)| < pow10 (-10) then
      toString (roundHalfEven conv) ++ String.mk [p]
    else sigFmt 6 conv ++ String.mk [p]
  | none =>
    match insSciSearch ref with
    | some _ => Fmt.format_engineering time_val
    | none =>
      if ref = ['0'] ∧ 0 < time_val then Fmt.suggest_optimal time_val
      else if ref ≠ [] ∧ 0 < time_val ∧
          try_format_like_ref time_val reference_str ≠ "" ∧
          Fmt.is_awkward_format (try_format_like_ref time_val reference_str) then
        Fmt.suggest_better_si time_val
      else sigFmt 6 time_val

/-- The clean-value multipliers `[1, 2, 5, 10, 20, 25, 50, 100]` followed by
the fractional ones `[0.1, 0.2, 0.5]`. -/
def cleanMults : List ℚ := [1, 2, 5, 10, 20, 25, 50, 100, 1/10, 2/10, 5/10]

/-- Clean candidates of `_maybe_round_insert`: for each exponent offset,
every `mult * 10^(floor(log10 v) + offset)` strictly inside `(lo, hi)`. -/
def cleanCandidates (v lo hi : ℚ) : List ℚ :=
  if 0 < v then
    ([-1, 0, 1] : List ℤ).flatMap (fun off =>
      cleanMults.filterMap (fun m =>
        let c := m * pow10 (decExp v + off)
        if lo < c ∧ c < hi then some c else none))
  else []

/-- First clean candidate (in closeness order) that keeps at least 1% of the
bound span as margin from either bound. -/
def firstMargin (lo hi : ℚ) : List ℚ → Option ℚ
  | [] => none
  | c :: rest =>
    if min |c - lo| |c - hi| > (hi - lo) * (1/100) then some c else firstMargin lo hi rest

/-- The spread of SI-grid fallback candidates in `_maybe_round_insert`:
skip candidates indistinguishable from the raw conversion, return the first
whose scaled value is strictly inside the bounds. -/
def fallbackLoop (lo hi conv mult : ℚ) (ref : String) : List ℚ → Option String
  | [] => none
  | cand :: rest =>
    if |cand - conv| < pow10 (-12) then fallbackLoop lo hi conv mult ref rest
    else
      let cand_val := cand * mult
      if lo < cand_val ∧ cand_val < hi then some (format_time_like_ref cand_val ref)
      else fallbackLoop lo hi conv mult ref rest

/-- `fmt.SI_PREFIXES.get(prefix)` for the suffix characters of the fallback
pattern's class `[fpnumkMG]` (every such character is a table key, and every
multiplier is non-zero, so the source's `if mult:` guard always passes). -/
def fullSiMult (c : Char) : ℚ :=
  if c = 'f' then pow10 (-15)
  else if c = 'p' then pow10 (-12)
  else if c = 'n' then pow10 (-9)
  else if c = 'u' then pow10 (-6)
  else if c = 'm' then pow10 (-3)
  else if c = 'k' then pow10 3
  else if c = 'M' then pow10 6
  else if c = 'G' then pow10 9
  else 1

/-- The value snapped by `_maybe_round_insert`'s clean-candidate phase, when
one exists: candidates sorted by distance from the raw value (stable), first
one passing the margin test. -/
def maybeRoundChoice (new_time_val lower upper : ℚ) : Option ℚ :=
  let lo := min lower upper
  let hi := max lower upper
  let cands := cleanCandidates new_time_val lo hi
  let sorted := List.insertionSort
    (fun a b => |a - new_time_val| ≤ |b - new_time_val|) cands
  firstMargin lo hi sorted

/-- `_maybe_round_insert(new_time_val, lower_bound, upper_bound,
reference_str)`. -/
def maybe_round_insert (new_time_val lower upper : ℚ) (reference_str : String) :
    Option String :=
  let lo := min lower upper
  let hi := max lower upper
  match maybeRoundChoice new_time_val lower upper with
  | some c => some (Fmt.suggest_optimal c)
  | none =>
    match insSiSearch Fmt.siSuffixClass (stripWs reference_str.toList) with
    | some (_, p) =>
      let mult := fullSiMult p
      let conv := new_time_val / mult
      fallbackLoop lo hi conv mult reference_str
        [(roundHalfEven conv : ℚ), (roundHalfEven (conv * 2) : ℚ) / 2,
         (roundHalfEven (conv * 10) : ℚ) / 10]
    | none => none

/-- `calculate_time_below(current_point, next_point)`. -/
def calculate_time_below (current : Pwl.PwlPoint) (next? : Option Pwl.PwlPoint) : String :=
  let ct := current.time_str
  let cv := current.time_value
  let step0 := step_size ct cv
  let step :=
    match next? with
    | some np =>
      let gap := np.time_value - cv
      if step0 ≥ gap * (9/10) then gap * (1/2) else step0
    | none => step0
  let newVal := cv + step
  match next? with
  | some np =>
    let nv := np.time_value
    (match maybe_round_insert newVal (min cv nv) (max cv nv) ct with
      | some s => s
      | none =>
        let result := format_time_like_ref newVal ct
        if Fmt.is_awkward_format result then Fmt.suggest_optimal newVal else result)
  | none =>
    let result := format_time_like_ref newVal ct
    if Fmt.is_awkward_format result then Fmt.suggest_optimal newVal else result

/-- Lexicographic key used to pick the most readable rendering in
`calculate_time_above`: awkwardness first (readable wins), then length. -/
def readableKey (x : String × ℕ × Bool) : ℕ × ℕ := (if x.2.2 then 0 else 1, x.2.1)

/-- Python `min(options, key=...)`: first option with the smallest key. -/
def pickReadable (x : String × ℕ × Bool) (rest : List (String × ℕ × Bool)) : String :=
  (rest.foldl (fun best o =>
    if (readableKey o).1 < (readableKey best).1 ∨
       ((readableKey o).1 = (readableKey best).1 ∧ (readableKey o).2 < (readableKey best).2)
    then o else best) x).1

/-- The characters after the first `.` of a rendered string (Python
`candidate.split(".")[1]`). -/
def afterDot (s : String) : List Char :=
  ((s.toList.dropWhile (· ≠ '.')).drop 1).takeWhile (· ≠ '.')

/-- `calculate_time_above(current_point, prev_point)`.  (The
`gap_ratio` division is exact rational division; Python would raise
`ZeroDivisionError` when the smaller neighbour time is exactly `0.0`, a
case outside every claim considered here.) -/
def calculate_time_above (current : Pwl.PwlPoint) (prev? : Option Pwl.PwlPoint) : String :=
  let ct := current.time_str
  let cv := current.time_value
  match prev? with
  | none =>
    let step := step_size ct cv
    format_time_like_ref (max 0 (cv - step)) ct
  | some pp =>
    let pv := pp.time_value
    let gap := cv - pv
    if gap ≤ 0 then
      let step := step_size ct cv
      format_time_like_ref (max 0 (cv - step * (1/10))) ct
    else
      let prev_step := step_size pp.time_str pv
      let curr_step := step_size ct cv
      let typical := min prev_step curr_step
      let newVal := pv + gap * (1/2)
      if gap < typical * (1/2) then
        match maybe_round_insert newVal pv cv ct with
        | some s => s
        | none =>
          let pf := format_time_like_ref newVal pp.time_str
          let cf := format_time_like_ref newVal ct
          let opt := Fmt.suggest_optimal newVal
          pickReadable (pf, pf.length, !(Fmt.is_awkward_format pf))
            [(cf, cf.length, !(Fmt.is_awkward_format cf)), (opt, opt.length, true)]
      else
        match maybe_round_insert newVal pv cv ct with
        | some s => s
        | none =>
          let gap_ratio := max cv pv / min cv pv
          if gap_ratio > 1000 then Fmt.suggest_optimal newVal
          else if |newVal - cv| ≤ |newVal - pv| then
            let cand := format_time_like_ref newVal ct
            if Fmt.is_awkward_format cand then Fmt.suggest_optimal newVal else cand
          else
            let cand := format_time_like_ref newVal pp.time_str
            if Fmt.is_awkward_format cand then Fmt.suggest_optimal newVal
            else if cand.toList.contains '.' ∧
                4 < ((afterDot cand).reverse.dropWhile (· = '0')).length then
              Fmt.suggest_optimal newVal
            else cand

end Ins

/-! ## `services/undo_history.py`

The document passed to `save_state` is abstracted to its text snapshot: the
source serialises it with `to_text_precise(..., preserve_original=True)`,
using `""` for the empty document (a non-empty document always serialises to
a non-empty string, so emptiness is `snapshot = ""`).  `undo()` re-parses
the snapshot it restores; the restored document is represented by that
snapshot. -/

namespace Undo

/-- `UndoRedoManager` state. -/
structure Mgr where
  undo_stack : List (String × String)
  redo_stack : List (String × String)
  max_history : ℕ
  initial_state_saved : Bool
deriving DecidableEq, Repr

/-- `UndoRedoManager(max_history=50)`. -/
def fresh (max_history : ℕ := 50) : Mgr :=
  { undo_stack := [], redo_stack := [], max_history := max_history,
    initial_state_saved := false }

/-- `save_state(pwl_data, description)` on a document with the given
serialisation. -/
def save_state (m : Mgr) (snapshot : String) (desc : String) : Mgr :=
  if m.initial_state_saved = false ∧ snapshot = "" then
    { m with
        undo_stack := m.undo_stack ++ [("", "Initial empty state")]
        initial_state_saved := true }
  else if m.undo_stack ≠ [] ∧ (m.undo_stack.getLast?.map Prod.fst) = some snapshot then m
  else
    let st := m.undo_stack ++ [(snapshot, desc)]
    let st' := if m.max_history < st.length then st.tail else st
    { m with undo_stack := st', redo_stack := [] }

/-- `can_undo()`. -/
def can_undo (m : Mgr) : Bool := 1 < m.undo_stack.length

/-- `can_redo()`. -/
def can_redo (m : Mgr) : Bool := 0 < m.redo_stack.length

/-- `undo()`: move the top snapshot to the redo stack and return the new
top (the restored document's serialisation) with its description. -/
def undo (m : Mgr) : Mgr × Option (String × String) :=
  if can_undo m = false then (m, none)
  else
    match m.undo_stack.getLast? with
    | none => (m, none)
    | some cur =>
      let m' : Mgr :=
        { m with
            undo_stack := m.undo_stack.dropLast
            redo_stack := m.redo_stack ++ [cur] }
      match m'.undo_stack.getLast? with
      | some (snap, desc) => (m', some (snap, desc))
      | none => (m', some ("", "Initial state"))

/-- Iterate `undo` n times, returning the final state and the last result. -/
def undoN : ℕ → Mgr → Mgr × Option (String × String)
  | 0, m => (m, none)
  | 1, m => undo m
  | n + 1, m => undoN n (undo m).1

/-- Fold a list of snapshots through `save_state`. -/
def saveAll (m : Mgr) (snaps : List String) : Mgr :=
  snaps.foldl (fun acc s => save_state acc s "Edit") m

end Undo

/-! ## `generators/square.py` -/

namespace Square

/-- `SquareWaveConfig`. -/
structure Config where
  low_level : ℚ
  high_level : ℚ
  period : ℚ
  duty_cycle : ℚ
  cycles : ℤ
  start_time : ℚ := 0
  initial_state_high : Bool := false
  edge_ppm : ℚ := 5
  prefer_relative : Bool := false
deriving Repr

/-- `_validate_config(config)`. -/
def validate_config (c : Config) : List String :=
  (if c.period ≤ 0 then ["period must be positive"] else []) ++
  (if ¬ (0 < c.duty_cycle ∧ c.duty_cycle < 100) then
    ["duty_cycle must be between 0 and 100 (exclusive)"] else []) ++
  (if c.cycles < 1 then ["cycles must be at least 1"] else []) ++
  (if c.edge_ppm < 0 then ["edge_ppm must be non-negative"] else []) ++
  (if c.start_time < 0 then ["start_time must be non-negative"] else [])

/-- `_append_stage(samples, start_time, plateau_duration, ramp_duration,
current_value, plateau_value, next_value)`. -/
def append_stage (samples : List (ℚ × ℚ)) (start_time plateau ramp current plateauV nextV : ℚ) :
    List (ℚ × ℚ) × ℚ × ℚ :=
  let lastS := samples.getLastD (0, 0)
  let (samples1, t1, cur1) :=
    if 0 < plateau then
      let t' := start_time + plateau
      (if t' > lastS.1 ∨ plateauV ≠ lastS.2 then samples ++ [(t', plateauV)] else samples,
       t', plateauV)
    else (samples, start_time, current)
  if 0 < ramp ∧ nextV ≠ cur1 then
    (samples1 ++ [(t1 + ramp, nextV)], t1 + ramp, nextV)
  else (samples1, t1, cur1)

/-- One generation cycle: the two stages in initial-state order. -/
def oneCycle (c : Config) (lowPlateau highPlateau rise fall : ℚ)
    (st : List (ℚ × ℚ) × ℚ × ℚ) : List (ℚ × ℚ) × ℚ × ℚ :=
  let (samples, t, cur) := st
  if c.initial_state_high then
    let (s1, t1, c1) := append_stage samples t highPlateau fall cur c.high_level c.low_level
    append_stage s1 t1 lowPlateau rise c1 c.low_level c.high_level
  else
    let (s1, t1, c1) := append_stage samples t lowPlateau rise cur c.low_level c.high_level
    append_stage s1 t1 highPlateau fall c1 c.high_level c.low_level

/-- `_generate_samples(config)`. -/
def generate_samples (c : Config) : List (ℚ × ℚ) :=
  let amplitude_delta := c.high_level - c.low_level
  let duty_fraction := c.duty_cycle / 100
  let high_time := c.period * duty_fraction
  let low_time := c.period - high_time
  let edge_fraction := max c.edge_ppm 0 * pow10 (-6)
  let edge_duration := edge_fraction * c.period
  let (rise, fall) :=
    if amplitude_delta = 0 ∨ edge_duration = 0 then ((0 : ℚ), (0 : ℚ))
    else (min edge_duration low_time, min edge_duration high_time)
  let high_plateau := max (high_time - fall) 0
  let low_plateau := max (low_time - rise) 0
  let t0 := c.start_time
  let v0 := if c.initial_state_high then c.high_level else c.low_level
  let init : List (ℚ × ℚ) × ℚ × ℚ := ([(t0, v0)], t0, v0)
  ((List.range c.cycles.toNat).foldl
    (fun st _ => oneCycle c low_plateau high_plateau rise fall st) init).1

/-- `_derive_warnings(config)`. -/
def derive_warnings (c : Config) : List String :=
  let amplitude_delta := |c.high_level - c.low_level|
  if amplitude_delta = 0 then []
  else
    let duty_fraction := c.duty_cycle / 100
    let high_time := c.period * duty_fraction
    let low_time := c.period - high_time
    let edge_fraction := max c.edge_ppm 0 * pow10 (-6)
    if edge_fraction = 0 then []
    else
      let edge_duration := edge_fraction * c.period
      (if 0 < low_time ∧ edge_duration > low_time + pow10 (-15) then
        ["Rising edge duration limited by available low interval."] else []) ++
      (if 0 < high_time ∧ edge_duration > high_time + pow10 (-15) then
        ["Falling edge duration limited by available high interval."] else [])

/-- Worker for `_build_pwl_data`: render each sample into a `PwlPoint`,
tracking the index, the previous sample time, and the previously built
point (the value-style reference). -/
def buildPoints (c : Config) : ℕ → ℚ → Option Pwl.PwlPoint → List (ℚ × ℚ) → List Pwl.PwlPoint
  | _, _, _, [] => []
  | idx, prevTime, lastPt?, (t, v) :: rest =>
    let (tstr, isRel) : String × Bool :=
      if idx = 0 ∨ c.prefer_relative = false then (Fmt.format_time t none, false)
      else (Fmt.format_time (max (t - prevTime) 0) none, true)
    let vstr := Fmt.format_value v (lastPt?.map (·.value_str))
    let pt := Pwl.mkPwlPoint tstr vstr isRel
    pt :: buildPoints c (idx + 1) t (some pt) rest

/-- `_build_pwl_data(config, samples, format_service)`. -/
def build_pwl_data (c : Config) (samples : List (ℚ × ℚ)) : Pwl.PwlData :=
  { points := buildPoints c 0 0 none samples,
    default_format := if c.prefer_relative then "relative" else "absolute" }

/-- `generate_square_wave(config)`: validation errors raise
`SquareWaveValidationError` with the messages joined by `"; "`. -/
def generate_square_wave (c : Config) : Except String (Pwl.PwlData × List String) :=
  match validate_config c with
  | [] => .ok (build_pwl_data c (generate_samples c), derive_warnings c)
  | errs => .error (String.intercalate "; " errs)

end Square

theorem pow10_pos (e : ℤ) : 0 < pow10 e := by
  unfold pow10
  positivity

theorem roundHalfEven_intCast (n : ℤ) : roundHalfEven (n : ℚ) = n := by
  unfold roundHalfEven
  simp

theorem roundHalfEven_eq_of {q : ℚ} {n : ℤ} (h1 : (n : ℚ) - 1/2 < q)
    (h2 : q < (n : ℚ) + 1/2) : roundHalfEven q = n := by
  rcases le_or_lt (n : ℚ) q with hq | hq
  · have hfl : ⌊q⌋ = n := by
      apply Int.floor_eq_iff.mpr
      refine ⟨hq, ?_⟩
      calc q < (n : ℚ) + 1/2 := h2
        _ ≤ (n : ℚ) + 1 := by norm_num
    have hlt : q - ((⌊q⌋ : ℤ) : ℚ) < 1/2 := by rw [hfl]; linarith
    unfold roundHalfEven
    rw [if_pos hlt, hfl]
  · have hfl : ⌊q⌋ = n - 1 := by
      apply Int.floor_eq_iff.mpr
      constructor
      · push_cast
        linarith
      · push_cast
        linarith
    have hgt : (1 : ℚ)/2 < q - ((⌊q⌋ : ℤ) : ℚ) := by rw [hfl]; push_cast; linarith
    have hnlt : ¬ (q - ((⌊q⌋ : ℤ) : ℚ) < 1/2) := by linarith
    unfold roundHalfEven
    rw [if_neg hnlt, if_pos hgt, hfl]
    omega

theorem roundHalfEven_tie_eq {q : ℚ} {m : ℤ} (h : q = (m : ℚ) + 1/2) :
    roundHalfEven q = if 2 ∣ m then m else m + 1 := by
  have hfl : ⌊q⌋ = m := by
    apply Int.floor_eq_iff.mpr
    constructor
    · rw [h]; linarith
    · rw [h]
      linarith
  have hr : q - ((⌊q⌋ : ℤ) : ℚ) = 1/2 := by rw [hfl, h]; ring
  unfold roundHalfEven
  rw [hr, if_neg (by norm_num), if_neg (by norm_num), hfl]

theorem decExp_eq_of {q : ℚ} {e : ℤ} (h1 : pow10 e ≤ |q|) (h2 : |q| < pow10 (e + 1)) :
    decExp q = e := by
  have hq : 0 < |q| := lt_of_lt_of_le (pow10_pos e) h1
  unfold decExp
  have hle : e ≤ Int.log 10 |q| := by
    rw [← Int.zpow_le_iff_le_log (by norm_num) hq]
    exact_mod_cast h1
  have hlt : Int.log 10 |q| < e + 1 := by
    rw [← Int.lt_zpow_iff_log_lt (by norm_num) hq]
    exact_mod_cast h2
  omega

theorem gRound_eq_of {q : ℚ} {e : ℤ} {p : ℕ} {n : ℤ} (hq : q ≠ 0)
    (h1 : pow10 e ≤ |q|) (h2 : |q| < pow10 (e + 1))
    (h3 : (n : ℚ) - 1/2 < q / pow10 (e - p + 1))
    (h4 : q / pow10 (e - p + 1) < (n : ℚ) + 1/2) :
    gRound p q = (n : ℚ) * pow10 (e - p + 1) := by
  simp only [gRound, if_neg hq, decExp_eq_of h1 h2, roundHalfEven_eq_of h3 h4]

theorem parseFloat_eq_some {s : String} {m e : ℤ} (h : parseFloatRep s = some (m, e)) :
    parseFloat s = some ((m : ℚ) * pow10 e) := by
  simp [parseFloat, h]

theorem parseFloat_eq_none {s : String} (h : parseFloatRep s = none) :
    parseFloat s = none := by
  simp [parseFloat, h]

theorem sigFmt_pos_eq_of {p : ℕ} {q : ℚ} {e : ℤ} {n : ℤ} (hq : 0 < q)
    (h1 : pow10 e ≤ q) (h2 : q < pow10 (e + 1))
    (h3 : (n : ℚ) - 1/2 < q / pow10 (e - p + 1))
    (h4 : q / pow10 (e - p + 1) < (n : ℚ) + 1/2) :
    sigFmt p q = sigFmtCore p n.natAbs (e - p + 1) := by
  have hq0 : q ≠ 0 := ne_of_gt hq
  have habs : |q| = q := abs_of_pos hq
  unfold sigFmt
  rw [if_neg hq0, if_neg (not_lt.mpr (le_of_lt hq)), habs,
    decExp_eq_of (by rw [habs]; exact h1) (by rw [habs]; exact h2),
    roundHalfEven_eq_of h3 h4]
  simp

/-! ## General-purpose lemmas -/

theorem toList_mk (l : List Char) : (String.mk l).toList = l := rfl

theorem pow10_ne_zero (e : ℤ) : pow10 e ≠ 0 := ne_of_gt (pow10_pos e)

theorem pow10_add (a b : ℤ) : pow10 (a + b) = pow10 a * pow10 b :=
  zpow_add₀ (by norm_num : (10 : ℚ) ≠ 0) a b

/-! ## Bridges between the rational-valued parsers and their integer-pair
forms, used to evaluate concrete parses. -/

theorem si_parse_eq_rep (s : String) :
    Pwl.si_parse s = (Pwl.si_parseRep s).map (fun me => (me.1 : ℚ) * pow10 me.2) := by
  unfold Pwl.si_parse Pwl.si_parseRep
  simp only [String.toList]
  cases hrep : parseFloatRep (String.mk (stripWs s.data)) with
  | some me => simp [parseFloat, hrep]
  | none =>
    simp only [parseFloat, hrep, Option.map_none']
    cases hl : (stripWs s.data).getLast? with
    | none => simp
    | some c =>
      dsimp only
      by_cases hc : (['f', 'p', 'n', 'm', 'k', 'M', 'G'] : List Char).contains c = true
      · rw [if_pos hc, if_pos hc]
        cases hrep2 : parseFloatRep (String.mk (stripWs s.data).dropLast) with
        | none => simp [parseFloat, hrep2]
        | some me =>
          simp only [parseFloat, hrep2, Option.map_some', Function.comp]
          have hmul : (me.1 : ℚ) * pow10 me.2 * Pwl.siPfxMult c =
              (me.1 : ℚ) * pow10 (me.2 + Pwl.siPfxExp c) := by
            rw [Pwl.siPfxMult, pow10_add]
            ring
          rw [hmul]
      · rw [if_neg hc, if_neg hc]
        rfl

theorem ltspice_eq_rep (s : String) :
    Pwl.ltspice_si_parse s = (Pwl.ltspiceRep s).map (fun me => (me.1 : ℚ) * pow10 me.2) := by
  unfold Pwl.ltspice_si_parse Pwl.ltspiceRep
  simp only [String.toList]
  by_cases hu : (lstripPlus s.data).getLast? = some 'u'
  · simp only [hu, if_pos]
    cases hrep : parseFloatRep (String.mk (lstripPlus s.data).dropLast) with
    | none => simp [parseFloat, hrep, si_parse_eq_rep]
    | some me =>
      simp only [parseFloat, hrep, Option.map_some']
      have : (me.1 : ℚ) * pow10 me.2 * pow10 (-6) = (me.1 : ℚ) * pow10 (me.2 - 6) := by
        rw [sub_eq_add_neg, pow10_add]
        ring
      rw [this]
  · simp [hu, si_parse_eq_rep]

theorem ltspice_eval {s : String} {m e : ℤ} (h : Pwl.ltspiceRep s = some (m, e)) :
    Pwl.ltspice_si_parse s = some ((m : ℚ) * pow10 e) := by
  rw [ltspice_eq_rep, h]
  rfl

theorem ltspice_none {s : String} (h : Pwl.ltspiceRep s = none) :
    Pwl.ltspice_si_parse s = none := by
  rw [ltspice_eq_rep, h]
  rfl

theorem mk_time_value_eval {t : String} {m e : ℤ} (v : String) (r : Bool)
    (h : Pwl.ltspiceRep (String.mk (lstripPlus (stripWs t.toList))) = some (m, e)) :
    (Pwl.mkPwlPoint t v r).time_value = (m : ℚ) * pow10 e := by
  simp only [String.toList] at h
  simp [Pwl.mkPwlPoint, Pwl.computeTimeValue, toList_mk, String.toList, ltspice_eval h]

theorem mk_time_value_none {t : String} (v : String) (r : Bool)
    (h : Pwl.ltspiceRep (String.mk (lstripPlus (stripWs t.toList))) = none) :
    (Pwl.mkPwlPoint t v r).time_value = 0 := by
  simp only [String.toList] at h
  simp [Pwl.mkPwlPoint, Pwl.computeTimeValue, toList_mk, String.toList, ltspice_none h]

theorem mk_value_value_eval {v : String} {m e : ℤ} (t : String) (r : Bool)
    (h : Pwl.ltspiceRep (String.mk (stripWs v.toList)) = some (m, e)) :
    (Pwl.mkPwlPoint t v r).value_value = (m : ℚ) * pow10 e := by
  simp only [String.toList] at h
  simp [Pwl.mkPwlPoint, Pwl.computeValueValue, toList_mk, String.toList, ltspice_eval h]

theorem mk_is_relative (t v : String) (r : Bool) : (Pwl.mkPwlPoint t v r).is_relative = r := rfl

theorem mk_time_str (t v : String) (r : Bool) :
    (Pwl.mkPwlPoint t v r).time_str = String.mk (stripWs t.toList) := rfl

theorem mk_value_str (t v : String) (r : Bool) :
    (Pwl.mkPwlPoint t v r).value_str = String.mk (stripWs v.toList) := rfl

/-! ## C3: `add_point` and the first-point invariant -/

/-- C3 counterexample: on a document whose single point sits at absolute
time `5`, `add_point("-3", "1", is_relative=True)` inserts a *relative*
point at index 0 (its candidate absolute time `5 - 3 = 2` precedes the
existing point), so the resulting first point has `is_relative = true` —
the claim's "a point inserted at index 0 is forced to absolute" is false. -/
theorem C3_counterexample :
    ((Pwl.add_point { points := [Pwl.mkPwlPoint "5" "0" false] } "-3" "1"
      (some true)).points.head?.map (·.is_relative)) = some true := by
  have h5 : (Pwl.mkPwlPoint "5" "0" false).time_value = ((5 : ℤ) : ℚ) * pow10 0 :=
    mk_time_value_eval "0" false (by decide)
  have hval : Pwl.ltspice_si_parse (String.mk ['-', '3']) =
      some (((-3 : ℤ) : ℚ) * pow10 0) := ltspice_eval (by decide)
  have hls : lstripPlus ['-', '3'] = ['-', '3'] := by decide
  unfold Pwl.add_point
  norm_num [hval, h5, hls, Pwl.absTimeAt, Pwl.absTimesFrom, Pwl.pointAbsTime, Pwl.insertPos,
    mk_is_relative, pow10, List.insertIdx, String.toList]

/-- C3 amended: `add_point` forces `is_relative = false` only when the
document was empty before the call; the inserted point then heads the list
as an absolute point. -/
theorem C3_empty_add_absolute (d : Pwl.PwlData) (t v : String) (r : Option Bool)
    (h : d.points = []) :
    ((Pwl.add_point d t v r).points.head?.map (·.is_relative)) = some false := by
  unfold Pwl.add_point
  rcases r with _ | b
  · simp [h, Pwl.insertPos, Pwl.absTimesFrom, mk_is_relative]
  · simp [h, Pwl.insertPos, Pwl.absTimesFrom, mk_is_relative]

/-- Witness for `C3_empty_add_absolute` at a concrete empty document. -/
theorem C3_empty_add_absolute_witness :
    ((Pwl.add_point { points := [] } "5" "1" (some true)).points.head?.map
      (·.is_relative)) = some false :=
  C3_empty_add_absolute { points := [] } "5" "1" (some true) rfl

/-! ## C10: point construction and update never raise, parse failure caches `0.0` -/

/-- C10: `PwlPoint.__init__`, `update_time_str` and `update_value_str` are
total (the source wraps `ltspice_si_parse` in a bare `except` that maps any
failure to `0.0`), and whenever the (stripped, `+`-stripped) time or value
string fails to parse, the cached numeric value is `0`. -/
theorem C10_parse_failure_zero (t v t2 v2 : String) (r : Bool) :
    ((Pwl.ltspice_si_parse (String.mk (lstripPlus (stripWs t.toList))) = none →
        (Pwl.mkPwlPoint t v r).time_value = 0) ∧
      (Pwl.ltspice_si_parse (String.mk (stripWs v.toList)) = none →
        (Pwl.mkPwlPoint t v r).value_value = 0)) ∧
    ((Pwl.ltspice_si_parse (String.mk (lstripPlus (stripWs t2.toList))) = none →
        (Pwl.updateTimeStr (Pwl.mkPwlPoint t v r) t2).time_value = 0) ∧
      (Pwl.ltspice_si_parse (String.mk (stripWs v2.toList)) = none →
        (Pwl.updateValueStr (Pwl.mkPwlPoint t v r) v2).value_value = 0)) := by
  refine ⟨⟨fun h => ?_, fun h => ?_⟩, fun h => ?_, fun h => ?_⟩ <;>
    (simp only [String.toList] at h) <;>
    simp [Pwl.mkPwlPoint, Pwl.updateTimeStr, Pwl.updateValueStr, Pwl.computeTimeValue,
      Pwl.computeValueValue, toList_mk, String.toList, h]

/-- Witness for `C10_parse_failure_zero`: the unparseable strings `"abc"`
and `"x!"` cache the value `0`. -/
theorem C10_parse_failure_zero_witness :
    (Pwl.ltspice_si_parse (String.mk (lstripPlus (stripWs "abc".toList))) = none ∧
      Pwl.ltspice_si_parse (String.mk (stripWs "x!".toList)) = none) ∧
    (Pwl.mkPwlPoint "abc" "x!" false).time_value = 0 ∧
    (Pwl.updateTimeStr (Pwl.mkPwlPoint "1" "2" false) "abc").time_value = 0 := by
  refine ⟨⟨by decide, by decide⟩, ?_, ?_⟩
  · exact ((C10_parse_failure_zero "abc" "x!" "q" "q" false).1.1) (by decide)
  · exact ((C10_parse_failure_zero "1" "2" "abc" "q" false).2.1) (by decide)

/-! ## C9: the two parallel `format_si` implementations -/

/-- Any multiplier stored in `SI_PREFIXES` is non-zero. -/
theorem siLookup_ne_zero {p : String} {mult : ℚ} (h : Fmt.siLookup p = some mult) :
    mult ≠ 0 := by
  unfold Fmt.siLookup at h
  cases hf : Fmt.siTable.find? (fun kv => kv.1 = p) with
  | none => rw [hf] at h; exact absurd h (by simp)
  | some kv =>
    rw [hf] at h
    have hkv : kv ∈ Fmt.siTable := List.mem_of_find?_eq_some hf
    have hm : mult = kv.2 := by simpa using h.symm
    rw [hm]
    simp only [Fmt.siTable, List.mem_cons] at hkv
    rcases hkv with h' | h' | h' | h' | h' | h' | h' | h' | h' | h'
    all_goals
      first
        | exact absurd h' (List.not_mem_nil _)
        | (rw [h']
           first
             | exact pow10_ne_zero _
             | norm_num)

/-- C9 counterexample: at `value = 1500` with no target, the two
implementations disagree — `pwl_formatting.format_si` keeps the bare number
(its candidate scoring prefers magnitudes near `1000`, so no suffix wins and
the integer snap yields `"1500"`), while `services.formatting.format_si`
picks the `k` suffix (scoring near `1`) and renders `"1.5k"`. -/
theorem C9_counterexample :
    PwlFmt.format_si 1500 none = "1500" ∧ Fmt.format_si 1500 none = "1.5k" ∧
      ("1500" : String) ≠ "1.5k" := by
  refine ⟨?_, ?_, by decide⟩
  · have hcand : (Fmt.siTable.filterMap (fun kv =>
        let conv := (1500:ℚ) / kv.2
        if 1/10 ≤ |conv| ∧ |conv| ≤ 9999 then some (kv, |(|conv| - 1000)|) else none))
        = [(("", (1:ℚ)), 500), (("k", pow10 3), 1997/2)] := by
      norm_num [Fmt.siTable, pow10, abs_of_nonneg, List.filterMap_cons]
    have hrd : roundHalfEven ((1500:ℚ)) = 1500 :=
      roundHalfEven_eq_of (by norm_num) (by norm_num)
    unfold PwlFmt.format_si PwlFmt.best_si_for
    rw [hcand]
    norm_num [pow10, hrd, abs_of_nonneg]
    decide
  · have h15 : ((1500:ℚ)/1000) = 3/2 := by norm_num
    have hrd : roundHalfEven ((3:ℚ)/2) = 2 := by
      rw [roundHalfEven_tie_eq (m := 1) (by norm_num)]
      decide
    have hsig : sigFmt 12 ((3:ℚ)/2) = "1.5" :=
      (sigFmt_pos_eq_of (e := 0) (n := 150000000000) (by norm_num) (by norm_num [pow10])
        (by norm_num [pow10]) (by norm_num [pow10]) (by norm_num [pow10])).trans (by decide)
    norm_num [Fmt.format_si, Fmt.best_si_for, Fmt.siTable, Fmt.bestStep, Fmt.format_with_suffix,
      Fmt.format_significant, pow10, abs_of_nonneg, h15, hrd, hsig, Fmt.strip_trailing_zeros,
      List.foldl_cons, List.foldl_nil]
    decide

/-- C9 amended: the two implementations agree whenever a target suffix from
the shared `SI_PREFIXES` table is given and the converted value is an exact
integer: both integer-snap tolerances accept it and both render
`str(int) + suffix`. -/
theorem C9_integer_target_agree (v : ℚ) (p : String) (mult : ℚ) (n : ℤ)
    (hp : Fmt.siLookup p = some mult) (hv : v = (n : ℚ) * mult) :
    PwlFmt.format_si v (some p) = Fmt.format_si v (some p) := by
  have hmult : mult ≠ 0 := siLookup_ne_zero hp
  by_cases hv0 : v = 0
  · simp [PwlFmt.format_si, Fmt.format_si, hv0]
  · have hconv : v / mult = (n : ℚ) := by
      rw [hv]
      field_simp
    unfold PwlFmt.format_si Fmt.format_si Fmt.format_with_suffix
    rw [if_neg hv0, if_neg hv0]
    simp only [hp, hconv, roundHalfEven_intCast, sub_self, abs_zero]
    rw [if_pos (pow10_pos (-10)), if_pos (le_of_lt (pow10_pos (-6)))]

/-- Witness for `C9_integer_target_agree` at `v = 2000`, `p = "k"`. -/
theorem C9_integer_target_agree_witness :
    Fmt.siLookup "k" = some (pow10 3) ∧ (2000 : ℚ) = ((2 : ℤ) : ℚ) * pow10 3 ∧
      PwlFmt.format_si 2000 (some "k") = Fmt.format_si 2000 (some "k") := by
  refine ⟨?_, by norm_num [pow10], ?_⟩
  · rfl
  · exact C9_integer_target_agree 2000 "k" (pow10 3) 2 rfl (by norm_num [pow10])

/-! ## C4: undo baseline semantics -/

/-- `save_state` after the first save: when the pushed snapshot differs from
the top of the stack and there is room, it appends one entry carrying that
snapshot and clears the redo stack (whichever branch runs). -/
theorem save_state_appends (m : Undo.Mgr) (s d : String)
    (_hne : m.undo_stack ≠ [])
    (hredo : m.redo_stack = [])
    (hroom : m.undo_stack.length + 1 ≤ m.max_history)
    (htop : (m.undo_stack.map Prod.fst).getLast? ≠ some s) :
    (Undo.save_state m s d).undo_stack.map Prod.fst = m.undo_stack.map Prod.fst ++ [s] ∧
    (Undo.save_state m s d).redo_stack = [] ∧
    (Undo.save_state m s d).max_history = m.max_history := by
  have hdedup : ¬ (m.undo_stack ≠ [] ∧ (m.undo_stack.getLast?.map Prod.fst) = some s) := by
    rintro ⟨-, heq⟩
    apply htop
    rw [List.getLast?_map]
    exact heq
  unfold Undo.save_state
  by_cases hb : m.initial_state_saved = false ∧ s = ""
  · rw [if_pos hb]
    refine ⟨?_, hredo, rfl⟩
    simp [hb.2]
  · rw [if_neg hb, if_neg hdedup]
    have hcond : ¬ (m.max_history < (m.undo_stack ++ [(s, d)]).length) := by
      simp only [List.length_append, List.length_singleton]
      omega
    dsimp only
    rw [if_neg hcond]
    exact ⟨by simp, rfl, rfl⟩

/-- Folding adjacent-distinct snapshots through `save_state` appends them in
order (no deduplication skips, no eviction while within capacity). -/
theorem saveAll_stack (snaps : List String) (m : Undo.Mgr)
    (hne : m.undo_stack ≠ [])
    (hredo : m.redo_stack = [])
    (hroom : m.undo_stack.length + snaps.length ≤ m.max_history)
    (hch : List.Chain' (· ≠ ·) (((m.undo_stack.map Prod.fst).getLastD "") :: snaps)) :
    (Undo.saveAll m snaps).undo_stack.map Prod.fst = m.undo_stack.map Prod.fst ++ snaps ∧
    (Undo.saveAll m snaps).redo_stack = [] ∧
    (Undo.saveAll m snaps).max_history = m.max_history := by
  induction snaps generalizing m with
  | nil => simpa [Undo.saveAll]
  | cons s rest ih =>
    have hmapne : m.undo_stack.map Prod.fst ≠ [] := by
      simpa using hne
    obtain ⟨x, hx⟩ : ∃ x, (m.undo_stack.map Prod.fst).getLast? = some x := by
      have := List.getLast?_isSome.mpr hmapne
      exact Option.isSome_iff_exists.mp this
    have hlastD : (m.undo_stack.map Prod.fst).getLastD "" = x := by
      rw [List.getLastD_eq_getLast?, hx]
      rfl
    have hxs : x ≠ s := by
      rw [hlastD] at hch
      rcases rest with _ | ⟨r, rs⟩
      · simpa [List.chain'_cons] using hch
      · exact (List.chain'_cons.mp hch).1
    have htop : (m.undo_stack.map Prod.fst).getLast? ≠ some s := by
      rw [hx]
      simpa using hxs
    have happ := save_state_appends m s "Edit" hne hredo
      (by simp only [List.length_cons] at hroom; omega) htop
    have hne' : (Undo.save_state m s "Edit").undo_stack ≠ [] := by
      intro hnil
      have : (Undo.save_state m s "Edit").undo_stack.map Prod.fst = [] := by
        rw [hnil]
        rfl
      rw [happ.1] at this
      simp at this
    have hlen' : (Undo.save_state m s "Edit").undo_stack.length =
        m.undo_stack.length + 1 := by
      have := congrArg List.length happ.1
      simpa using this
    have hlastD' : ((Undo.save_state m s "Edit").undo_stack.map Prod.fst).getLastD "" = s := by
      rw [happ.1, List.getLastD_eq_getLast?, List.getLast?_concat]
      rfl
    have hch' : List.Chain'
        (· ≠ ·) ((((Undo.save_state m s "Edit").undo_stack.map Prod.fst).getLastD "") :: rest) := by
      rw [hlastD']
      rw [hlastD] at hch
      rcases rest with _ | ⟨r, rs⟩
      · simp
      · exact (List.chain'_cons.mp hch).2
    have hroom' : (Undo.save_state m s "Edit").undo_stack.length + rest.length ≤
        (Undo.save_state m s "Edit").max_history := by
      rw [hlen', happ.2.2]
      simp only [List.length_cons] at hroom
      omega
    have hmain := ih (Undo.save_state m s "Edit") hne' happ.2.1 hroom' hch'
    refine ⟨?_, hmain.2.1, hmain.2.2.trans happ.2.2⟩
    rw [show Undo.saveAll m (s :: rest) =
        Undo.saveAll (Undo.save_state m s "Edit") rest from rfl]
    rw [hmain.1, happ.1]
    simp

/-- `undo` on a stack `l ++ [e]` with `l ≠ []`: pop `e`, return the new
top. -/
theorem undo_concat (m : Undo.Mgr) (l : List (String × String)) (e : String × String)
    (hs : m.undo_stack = l ++ [e]) (hl : l ≠ []) :
    (Undo.undo m).1.undo_stack = l ∧ (Undo.undo m).2 = l.getLast? := by
  have hcan : ¬ (Undo.can_undo m = false) := by
    simp only [Undo.can_undo, hs]
    rcases l with _ | ⟨a, l'⟩
    · exact absurd rfl hl
    · simp
  obtain ⟨y, hy⟩ : ∃ y, l.getLast? = some y := by
    have := List.getLast?_isSome.mpr hl
    exact Option.isSome_iff_exists.mp this
  unfold Undo.undo
  rw [if_neg hcan, hs, List.getLast?_concat]
  simp [List.dropLast_concat, hy]

/-- Iterating `undo` as many times as there are entries above the bottom
entry lands exactly on that bottom entry and returns it. -/
theorem undoN_to_front (l : List (String × String)) (front : String × String) :
    ∀ m : Undo.Mgr, m.undo_stack = front :: l → 1 ≤ l.length →
    (Undo.undoN l.length m).1.undo_stack = [front] ∧
    (Undo.undoN l.length m).2 = some front := by
  induction l using List.reverseRecOn with
  | nil =>
    intro m _ hlen
    simp at hlen
  | append_singleton l' e ih =>
    intro m hs hlen
    rcases l' with _ | ⟨a, l''⟩
    · have h1 := undo_concat m [front] e (by simpa using hs) (by simp)
      simp only [List.nil_append, List.length_singleton]
      rw [show Undo.undoN 1 m = Undo.undo m from rfl]
      refine ⟨h1.1, ?_⟩
      rw [h1.2]
      rfl
    · have hstep := undo_concat m (front :: a :: l'') e (by simpa using hs) (by simp)
      have hrec := ih (Undo.undo m).1 hstep.1 (by simp)
      have hunf : Undo.undoN ((a :: l'') ++ [e]).length m =
          Undo.undoN (a :: l'').length (Undo.undo m).1 := by
        simp only [List.length_append, List.length_cons, List.length_nil]
        rfl
      rw [hunf]
      exact hrec

/-- C4 amended: on a fresh default manager (`max_history = 50`),
`can_undo()` is false right after the first `save_state`; and for
`1 ≤ N ≤ max_history - 1 = 49` subsequent saves whose serialisations form an
adjacent-distinct chain with the baseline, exactly `N` `undo()` calls reach
the baseline: the `N`-th undo returns the baseline serialisation and leaves
nothing further to undo.  (For `N ≥ 50` the baseline is evicted; see the
counterexample.) -/
theorem C4_undo_baseline (base desc : String) (snaps : List String)
    (h1 : 1 ≤ snaps.length) (h2 : snaps.length ≤ 49)
    (hch : List.Chain' (· ≠ ·) (base :: snaps)) :
    Undo.can_undo (Undo.save_state (Undo.fresh 50) base desc) = false ∧
    ((Undo.undoN snaps.length
        (Undo.saveAll (Undo.save_state (Undo.fresh 50) base desc) snaps)).2).map Prod.fst =
      some base ∧
    Undo.can_undo
      (Undo.undoN snaps.length
        (Undo.saveAll (Undo.save_state (Undo.fresh 50) base desc) snaps)).1 = false := by
  set m0 := Undo.save_state (Undo.fresh 50) base desc with hm0def
  have hm0 : m0.undo_stack.map Prod.fst = [base] ∧ m0.redo_stack = [] ∧
      m0.max_history = 50 := by
    rw [hm0def]
    unfold Undo.save_state Undo.fresh
    by_cases hb : base = ""
    · simp [hb]
    · simp [hb]
  have hcan0 : Undo.can_undo m0 = false := by
    have hlen : m0.undo_stack.length = 1 := by
      have := congrArg List.length hm0.1
      simpa using this
    simp [Undo.can_undo, hlen]
  have hne : m0.undo_stack ≠ [] := by
    intro h
    rw [h] at hm0
    simp at hm0
  have hlastD : (m0.undo_stack.map Prod.fst).getLastD "" = base := by
    rw [hm0.1]
    rfl
  have hroom : m0.undo_stack.length + snaps.length ≤ m0.max_history := by
    have hlen : m0.undo_stack.length = 1 := by
      have := congrArg List.length hm0.1
      simpa using this
    rw [hlen, hm0.2.2]
    omega
  have hall := saveAll_stack snaps m0 hne hm0.2.1 hroom (by rw [hlastD]; exact hch)
  have hmap : (Undo.saveAll m0 snaps).undo_stack.map Prod.fst = base :: snaps := by
    rw [hall.1, hm0.1]
    rfl
  rcases hstack : (Undo.saveAll m0 snaps).undo_stack with _ | ⟨front, l⟩
  · rw [hstack] at hmap
    simp at hmap
  · rw [hstack] at hmap
    simp only [List.map_cons, List.cons.injEq] at hmap
    have hfl : l.length = snaps.length := by
      have := congrArg List.length hmap.2
      simpa using this
    have hres := undoN_to_front l front (Undo.saveAll m0 snaps) hstack (by omega)
    refine ⟨hcan0, ?_, ?_⟩
    · rw [← hfl, hres.2]
      simp [hmap.1]
    · rw [← hfl]
      simp [Undo.can_undo, hres.1]

/-- Witness for `C4_undo_baseline` with baseline `""` and one edit. -/
theorem C4_undo_baseline_witness :
    (1 ≤ ([("a" : String)]).length ∧ ([("a" : String)]).length ≤ 49 ∧
      List.Chain' (· ≠ ·) ("" :: ["a"])) ∧
    ((Undo.undoN 1 (Undo.saveAll (Undo.save_state (Undo.fresh 50) "" "Init") ["a"])).2).map
      Prod.fst = some "" := by
  have hchain : List.Chain' (· ≠ ·) ("" :: ["a"]) :=
    List.chain'_cons.mpr ⟨by decide, List.chain'_singleton _⟩
  refine ⟨⟨by decide, by decide, hchain⟩, ?_⟩
  have h := C4_undo_baseline "" "Init" ["a"] (by decide) (by decide) hchain
  exact h.2.1

set_option maxRecDepth 100000 in
/-- C4 counterexample: with the default capacity 50, after the baseline save
and `N = 50` distinct subsequent saves the baseline entry has been evicted:
the 49th undo already returns the first edit (not the baseline) and the 50th
undo has nothing left to undo — so "exactly N undo() calls return the
original baseline" fails for `N = 50`. -/
theorem C4_counterexample :
    (Undo.undoN 50 (Undo.saveAll (Undo.save_state (Undo.fresh 50) "" "Init")
      ((List.range 50).map (fun i => "s" ++ toString i)))).2 = none ∧
    (Undo.undoN 49 (Undo.saveAll (Undo.save_state (Undo.fresh 50) "" "Init")
      ((List.range 50).map (fun i => "s" ++ toString i)))).2 = some ("s0", "Edit") := by
  constructor
  · decide
  · decide

/-! ## C7: `sort_by_time` and absolute-time monotonicity -/

theorem upd_time_value_eval {t2 : String} {m e : ℤ} (p : Pwl.PwlPoint)
    (h : Pwl.ltspiceRep (String.mk (lstripPlus (stripWs t2.toList))) = some (m, e)) :
    (Pwl.updateTimeStr p t2).time_value = (m : ℚ) * pow10 e := by
  simp only [String.toList] at h
  simp [Pwl.updateTimeStr, Pwl.computeTimeValue, toList_mk, String.toList, ltspice_eval h]

theorem upd_is_relative (p : Pwl.PwlPoint) (t2 : String) :
    (Pwl.updateTimeStr p t2).is_relative = p.is_relative := rfl

/-- Setting an already-false relative flag is the identity. -/
theorem set_rel_false_eq (p : Pwl.PwlPoint) (h : p.is_relative = false) :
    { p with is_relative := false } = p := by
  cases p
  simp_all

/-- Running absolute times of an all-absolute point list are just the cached
time values, from any accumulator. -/
theorem absTimesFrom_all_abs (pts : List Pwl.PwlPoint)
    (h : ∀ p ∈ pts, p.is_relative = false) :
    ∀ cur, Pwl.absTimesFrom cur pts = pts.map Pwl.PwlPoint.time_value := by
  induction pts with
  | nil => intro cur; rfl
  | cons p rest ih =>
    intro cur
    have hp : p.is_relative = false := h p (List.mem_cons_self p rest)
    have hrest : ∀ q ∈ rest, q.is_relative = false := fun q hq => h q (List.mem_cons_of_mem p hq)
    simp [Pwl.absTimesFrom, Pwl.pointAbsTime, hp, ih hrest]

/-- `recalcStep` leaves an all-absolute list unchanged. -/
theorem recalcStep_all_abs (pts : List Pwl.PwlPoint)
    (h : ∀ p ∈ pts, p.is_relative = false) (i : ℕ) :
    Pwl.recalcStep pts i = pts := by
  unfold Pwl.recalcStep
  cases hg : pts.get? i with
  | none => rfl
  | some p =>
    have hp : p ∈ pts := List.get?_mem hg
    dsimp only
    simp [h p hp]

/-- The recalculation loop leaves an all-absolute list unchanged. -/
theorem recalc_all_abs (pts : List Pwl.PwlPoint)
    (h : ∀ p ∈ pts, p.is_relative = false) :
    Pwl.recalculate_relative_times pts = pts := by
  cases pts with
  | nil => rfl
  | cons p rest =>
    have hp : p.is_relative = false := h p (List.mem_cons_self p rest)
    unfold Pwl.recalculate_relative_times
    dsimp only
    rw [set_rel_false_eq p hp]
    have : ∀ is : List ℕ, is.foldl Pwl.recalcStep (p :: rest) = p :: rest := by
      intro is
      induction is with
      | nil => rfl
      | cons i is ih => rw [List.foldl_cons, recalcStep_all_abs _ h, ih]
    exact this _

theorem zip_map_self {α β : Type} (f : α → β) (l : List α) :
    (l.map f).zip l = l.map (fun x => (f x, x)) := by
  induction l with
  | nil => rfl
  | cons x xs ih => simp [ih]

/-- C7 amended: on a document whose points are all absolute, `sort_by_time`
yields non-decreasing absolute times.  (With relative points the property
fails: see the counterexample.) -/
theorem C7_sort_monotone (d : Pwl.PwlData)
    (h : ∀ p ∈ d.points, p.is_relative = false) :
    List.Chain' (· ≤ ·) (Pwl.timestamps (Pwl.sort_by_time d)) := by
  set sorted := List.insertionSort (fun a b : ℚ × Pwl.PwlPoint => a.1 ≤ b.1)
    ((Pwl.timestamps d).zip d.points) with hsorted
  have hgoal : Pwl.timestamps (Pwl.sort_by_time d) =
      Pwl.absTimesFrom 0 (Pwl.recalculate_relative_times (sorted.map Prod.snd)) := rfl
  rw [hgoal]
  have hpairs : (Pwl.timestamps d).zip d.points =
      d.points.map (fun x => (Pwl.PwlPoint.time_value x, x)) := by
    rw [show Pwl.timestamps d = d.points.map Pwl.PwlPoint.time_value from
      absTimesFrom_all_abs d.points h 0]
    exact zip_map_self _ _
  have hmem : ∀ x ∈ sorted, x.1 = x.2.time_value ∧ x.2.is_relative = false := by
    intro x hx
    have hx2 : x ∈ (Pwl.timestamps d).zip d.points :=
      (List.perm_insertionSort _ _).mem_iff.mp hx
    rw [hpairs] at hx2
    obtain ⟨p, hp, rfl⟩ := List.mem_map.mp hx2
    exact ⟨rfl, h p hp⟩
  have habs : ∀ q ∈ sorted.map Prod.snd, q.is_relative = false := by
    intro q hq
    obtain ⟨x, hx, rfl⟩ := List.mem_map.mp hq
    exact (hmem x hx).2
  rw [recalc_all_abs _ habs, absTimesFrom_all_abs _ habs]
  have hmapeq : (sorted.map Prod.snd).map Pwl.PwlPoint.time_value = sorted.map Prod.fst := by
    rw [List.map_map]
    exact List.map_congr_left (fun x hx => ((hmem x hx).1).symm)
  rw [hmapeq]
  have hsortedp : List.Pairwise (fun a b : ℚ × Pwl.PwlPoint => a.1 ≤ b.1) sorted :=
    List.sorted_insertionSort _ _
  have : List.Pairwise (· ≤ ·) (sorted.map Prod.fst) := by
    rw [List.pairwise_map]
    exact hsortedp
  exact this.chain'

/-- Witness for `C7_sort_monotone` on a two-point absolute document. -/
theorem C7_sort_monotone_witness :
    (∀ p ∈ ({ points := [Pwl.mkPwlPoint "2" "0" false, Pwl.mkPwlPoint "1" "0" false] } :
        Pwl.PwlData).points, p.is_relative = false) ∧
    List.Chain' (· ≤ ·) (Pwl.timestamps (Pwl.sort_by_time
      { points := [Pwl.mkPwlPoint "2" "0" false, Pwl.mkPwlPoint "1" "0" false] })) := by
  refine ⟨by decide, ?_⟩
  exact C7_sort_monotone _ (by decide)

/-- C7 counterexample: on the mixed document
`[absolute "0", relative "10", absolute "3", absolute "12"]` (absolute times
`[0, 10, 3, 12]`), `sort_by_time` orders the points by their *old* absolute
times into `[0-abs, 3-abs, 10-rel, 12-abs]`; the relative point re-derives
its absolute time from its new predecessor (`3 + 10 = 13`), so the derived
sequence `[0, 3, 13, 12]` is not non-decreasing. -/
theorem C7_counterexample :
    Pwl.timestamps (Pwl.sort_by_time { points := [Pwl.mkPwlPoint "0" "0" false,
      Pwl.mkPwlPoint "10" "0" true, Pwl.mkPwlPoint "3" "0" false,
      Pwl.mkPwlPoint "12" "0" false] }) = [0, 3, 13, 12] ∧
    ¬ List.Chain' (· ≤ ·) ([0, 3, 13, 12] : List ℚ) := by
  have hv0 : (Pwl.mkPwlPoint "0" "0" false).time_value = ((0:ℤ):ℚ) * pow10 0 :=
    mk_time_value_eval "0" false (by decide)
  have hv10 : (Pwl.mkPwlPoint "10" "0" true).time_value = ((10:ℤ):ℚ) * pow10 0 :=
    mk_time_value_eval "0" true (by decide)
  have hv3 : (Pwl.mkPwlPoint "3" "0" false).time_value = ((3:ℤ):ℚ) * pow10 0 :=
    mk_time_value_eval "0" false (by decide)
  have hv12 : (Pwl.mkPwlPoint "12" "0" false).time_value = ((12:ℤ):ℚ) * pow10 0 :=
    mk_time_value_eval "0" false (by decide)
  have hsig : sigFmt 9 ((10:ℚ)) = "10" :=
    (sigFmt_pos_eq_of (e := 1) (n := 100000000) (by norm_num) (by norm_num [pow10])
      (by norm_num [pow10]) (by norm_num [pow10]) (by norm_num [pow10])).trans (by decide)
  have hupd : (Pwl.updateTimeStr (Pwl.mkPwlPoint "10" "0" true) "10").time_value =
      ((10:ℤ):ℚ) * pow10 0 :=
    upd_time_value_eval _ (by decide)
  constructor
  · norm_num [Pwl.sort_by_time, Pwl.timestamps, Pwl.absTimesFrom, Pwl.pointAbsTime,
      Pwl.recalculate_relative_times, Pwl.recalcStep, Pwl.absTimeAt, List.insertionSort,
      List.orderedInsert, List.range', mk_is_relative, upd_is_relative, hv0, hv10, hv3, hv12,
      hsig, hupd, pow10, List.get?]
  · norm_num [List.chain'_cons]

/-! ## C1: `load_from_text` failure semantics -/

/-- **C1 counterexample**: on a document holding the single point `(9, 9)`,
loading `"1 2\nbad bad bad"` returns the failure flag yet leaves the
document with the partially-loaded list `[(1, 2)]` — the original points
were cleared up front and line 0 was appended before line 1 failed the
token-count check — and loading `"x y"` propagates the `ValueError` that
`ltspice_si_parse` raises on the unparseable time token. -/
theorem C1_counterexample :
    Pwl.load_from_text { points := [Pwl.mkPwlPoint "9" "9" false] } "1 2\nbad bad bad"
        = Pwl.LoadOutcome.failed [Pwl.mkPwlPoint "1" "2" false] ∧
      [Pwl.mkPwlPoint "1" "2" false] ≠ [Pwl.mkPwlPoint "9" "9" false] ∧
      Pwl.load_from_text { points := [Pwl.mkPwlPoint "9" "9" false] } "x y"
        = Pwl.LoadOutcome.raised [] := by
  refine ⟨rfl, ?_, rfl⟩
  intro hcon
  exact absurd (congrArg (List.map Pwl.PwlPoint.time_str) hcon) (by decide)

/-- `loadLinesGo` cannot reach the `raised` outcome when every remaining
line that splits into exactly two tokens has a parseable time token. -/
theorem loadLinesGo_no_raise (lines : List (List Char)) :
    ∀ (t : ℚ) (acc : List Pwl.PwlPoint),
      (∀ line ∈ lines, Pwl.lineNumericOk line = true) →
      ∀ pts, Pwl.loadLinesGo t acc lines ≠ Pwl.LoadOutcome.raised pts := by
  induction lines with
  | nil =>
    intro t acc _ pts
    unfold Pwl.loadLinesGo
    split <;> simp
  | cons l rest ih =>
    intro t acc h pts
    have hl : Pwl.lineNumericOk l = true := h l (List.mem_cons_self l rest)
    have hrest : ∀ line ∈ rest, Pwl.lineNumericOk line = true :=
      fun line hm => h line (List.mem_cons_of_mem l hm)
    unfold Pwl.lineNumericOk at hl
    unfold Pwl.loadLinesGo
    rcases hw : wordsOf l with _ | ⟨a0, _ | ⟨a1, _ | ⟨a2, tl⟩⟩⟩
    · exact ih t acc hrest pts
    · simp
    · rw [hw] at hl
      dsimp only at hl ⊢
      rcases hq : Pwl.ltspice_si_parse (String.mk a0) with _ | q
      · rw [hq] at hl
        simp at hl
      · exact ih _ _ hrest pts
    · simp

/-- **C1** (amended): `load_from_text` reports malformed token-count lines
and empty input by returning the failure flag, and it never raises provided
every two-token line's time token parses; without that proviso an
unparseable time token propagates a `ValueError`, and on any failure after
the first parsed line the document keeps the partially-loaded points (the
original list is cleared up front, so there is no unchanged-document
guarantee at this method — the scratch-and-swap lives in the caller). -/
theorem C1_no_raise (d : Pwl.PwlData) (text : String)
    (h : ∀ line ∈ splitLines text.toList, Pwl.lineNumericOk line = true) :
    ∀ pts, Pwl.load_from_text d text ≠ Pwl.LoadOutcome.raised pts := by
  intro pts
  simp only [Pwl.load_from_text]
  split
  · simp
  · exact loadLinesGo_no_raise _ 0 [] h pts

/-- Witness for `C1_no_raise`: the two-line text `"1 2\n+2 5"` satisfies the
parseability proviso, and loading it never yields the raised outcome. -/
theorem C1_no_raise_witness :
    (∀ line ∈ splitLines ("1 2\n+2 5" : String).toList, Pwl.lineNumericOk line = true) ∧
      Pwl.load_from_text { points := [] } "1 2\n+2 5" ≠ Pwl.LoadOutcome.raised [] :=
  ⟨by decide, C1_no_raise { points := [] } "1 2\n+2 5" (by decide) []⟩

/-! ## C2: `_spread_group` window placement -/

/-- First element of an arithmetic progression over `List.range (m+1)`. -/
theorem rangeMap_headD (f : ℕ → ℚ) (m : ℕ) :
    ((List.range (m + 1)).map f).head?.getD 0 = f 0 := by
  rw [List.range_succ_eq_map, List.map_cons]
  rfl

/-- Last element of an arithmetic progression over `List.range (m+1)`. -/
theorem rangeMap_lastD (f : ℕ → ℚ) (m : ℕ) :
    ((List.range (m + 1)).map f).getLast?.getD 0 = f m := by
  rw [List.range_succ, List.map_append, List.map_cons, List.map_nil, List.getLast?_concat]
  rfl

/-- The generic facts about the arithmetic progression `_spread_group`
writes back: strictly increasing, strictly inside `(p, n)`, and spanning
exactly `T` from first to last element. -/
theorem progressionFacts (k : ℕ) (hk : 2 ≤ k) (a T p n tol : ℚ)
    (htol : 0 < tol) (hmin : tol * ((k : ℚ) - 1) ≤ T)
    (hlo : p + tol ≤ a) (hhi : a + T + tol ≤ n) :
    List.Chain' (· < ·) ((List.range k).map (fun j : ℕ => a + T / ((k : ℚ) - 1) * (j : ℚ))) ∧
      (∀ t ∈ (List.range k).map (fun j : ℕ => a + T / ((k : ℚ) - 1) * (j : ℚ)), p < t ∧ t < n) ∧
      ((List.range k).map (fun j : ℕ => a + T / ((k : ℚ) - 1) * (j : ℚ))).head?.getD 0 + T
        = ((List.range k).map (fun j : ℕ => a + T / ((k : ℚ) - 1) * (j : ℚ))).getLast?.getD 0 := by
  have hkQ : (2 : ℚ) ≤ (k : ℚ) := by exact_mod_cast hk
  have hk1 : (0 : ℚ) < (k : ℚ) - 1 := by linarith
  have hminpos : 0 < tol * ((k : ℚ) - 1) := mul_pos htol hk1
  have hT : 0 < T := lt_of_lt_of_le hminpos hmin
  have hs : 0 < T / ((k : ℚ) - 1) := div_pos hT hk1
  have hcancel : T / ((k : ℚ) - 1) * ((k : ℚ) - 1) = T := div_mul_cancel₀ T (ne_of_gt hk1)
  refine ⟨?_, ?_, ?_⟩
  · apply List.Pairwise.chain'
    rw [List.pairwise_map]
    apply (List.pairwise_lt_range k).imp
    intro i j hij
    have hij' : (i : ℚ) < (j : ℚ) := by exact_mod_cast hij
    have := mul_lt_mul_of_pos_left hij' hs
    linarith
  · intro t ht
    simp only [List.mem_map, List.mem_range] at ht
    obtain ⟨j, hj, rfl⟩ := ht
    have hj0 : (0 : ℚ) ≤ (j : ℚ) := Nat.cast_nonneg j
    have hj1 : (j : ℚ) ≤ (k : ℚ) - 1 := by
      have h2 : (j : ℚ) + 1 ≤ (k : ℚ) := by exact_mod_cast Nat.succ_le_of_lt hj
      linarith
    have h1 : 0 ≤ T / ((k : ℚ) - 1) * (j : ℚ) := mul_nonneg (le_of_lt hs) hj0
    have h2 : T / ((k : ℚ) - 1) * (j : ℚ) ≤ T :=
      le_of_le_of_eq (mul_le_mul_of_nonneg_left hj1 (le_of_lt hs)) hcancel
    constructor <;> linarith
  · obtain ⟨m, rfl⟩ : ∃ m, k = m + 1 := ⟨k - 1, by omega⟩
    rw [rangeMap_headD, rangeMap_lastD]
    have hm1 : (1 : ℚ) ≤ (m : ℚ) := by
      have h3 : (2 : ℚ) ≤ (m : ℚ) + 1 := by exact_mod_cast hk
      linarith
    have hmc : T / (((m + 1 : ℕ) : ℚ) - 1) * ((m : ℕ) : ℚ) = T := by
      rw [show (((m + 1 : ℕ) : ℚ) - 1) = ((m : ℕ) : ℚ) from by push_cast; ring]
      exact div_mul_cancel₀ T (by linarith)
    rw [hmc]
    push_cast
    ring

/-- With both clamp bounds present, a positive target span, and room
(`ms + T ≤ me`), every strategy places the window at least at `ms`, with
width exactly `T`, ending no later than `me`. -/
theorem spreadWindow_bounds (strat : Repair.DupStrategy) (T ms origin me : ℚ)
    (hroom : ms + T ≤ me) :
    ms ≤ (Repair.spreadWindow strat T (some ms) origin (some me)).1 ∧
      (Repair.spreadWindow strat T (some ms) origin (some me)).2
        = (Repair.spreadWindow strat T (some ms) origin (some me)).1 + T ∧
      (Repair.spreadWindow strat T (some ms) origin (some me)).2 ≤ me := by
  cases strat <;> dsimp only [Repair.spreadWindow] <;> (try simp only [min_def]) <;>
    split_ifs <;> dsimp only <;> refine ⟨by linarith, by linarith, by linarith⟩

/-- When the placed window has width `T ≥ min_span > 0`, the fix-up stage
keeps the start and returns span `T`. -/
theorem spreadSpan_eq (strat : Repair.DupStrategy) (min_span : ℚ) (w : ℚ × ℚ) (T : ℚ)
    (hwe : w.2 = w.1 + T) (hTmin : min_span ≤ T) (hminpos : 0 < min_span) :
    Repair.spreadSpan strat min_span w = (w.1, T) := by
  obtain ⟨ws, we⟩ := w
  dsimp only at hwe
  subst hwe
  unfold Repair.spreadSpan
  dsimp only
  have h1 : ¬ (ws + T ≤ ws) := by intro hcon; linarith
  simp only [if_neg h1]
  have h2 : ¬ (ws + T - ws < min_span) := by intro hcon; linarith
  simp only [if_neg h2]
  rw [Prod.mk.injEq]
  exact ⟨rfl, by ring⟩

/-- With both neighbours present and the target span plus a tolerance gap
on each side fitting between them, `_spread_group` writes an arithmetic
progression of the target span placed strictly inside the neighbours. -/
theorem spread_group_window (strat : Repair.DupStrategy) (slew tol p origin n : ℚ)
    (vs : List ℚ) (htol : 0 < tol) (hk : 2 ≤ vs.length)
    (hroom : max ((Repair.maxQ vs - Repair.minQ vs) / slew) (tol * ((vs.length : ℚ) - 1))
        + 2 * tol ≤ n - p) :
    ∃ a, Repair.spread_group strat slew tol (some p) origin (some n) vs
        = (List.range vs.length).map
            (fun j : ℕ => a + max ((Repair.maxQ vs - Repair.minQ vs) / slew)
                (tol * ((vs.length : ℚ) - 1)) / ((vs.length : ℚ) - 1) * (j : ℚ))
      ∧ p + tol ≤ a
      ∧ a + max ((Repair.maxQ vs - Repair.minQ vs) / slew) (tol * ((vs.length : ℚ) - 1))
          + tol ≤ n := by
  have hkQ : (2 : ℚ) ≤ (vs.length : ℚ) := by exact_mod_cast hk
  have hk1 : (0 : ℚ) < (vs.length : ℚ) - 1 := by linarith
  have hminpos : 0 < tol * ((vs.length : ℚ) - 1) := mul_pos htol hk1
  have hTmin : tol * ((vs.length : ℚ) - 1)
      ≤ max ((Repair.maxQ vs - Repair.minQ vs) / slew) (tol * ((vs.length : ℚ) - 1)) :=
    le_max_right _ _
  have hms : (p + tol) + max ((Repair.maxQ vs - Repair.minQ vs) / slew)
      (tol * ((vs.length : ℚ) - 1)) ≤ n - tol := by linarith
  have hb := spreadWindow_bounds strat
    (max ((Repair.maxQ vs - Repair.minQ vs) / slew) (tol * ((vs.length : ℚ) - 1)))
    (p + tol) origin (n - tol) hms
  have hspan := spreadSpan_eq strat (tol * ((vs.length : ℚ) - 1)) _ _ hb.2.1 hTmin hminpos
  unfold Repair.spread_group
  rw [if_neg (by omega : ¬ vs.length < 2)]
  have hss : (if Repair.maxQ vs - Repair.minQ vs ≠ 0
        then (Repair.maxQ vs - Repair.minQ vs) / slew else 0)
      = (Repair.maxQ vs - Repair.minQ vs) / slew := by
    split_ifs with h
    · rfl
    · rw [not_not] at h
      rw [h, zero_div]
  cases strat <;>
    simp only [hss, Option.map_some', Option.getD_some] <;>
    simp only [hspan] <;>
    exact ⟨_, rfl, by
        have h1 := hb.1
        linarith, by
        have h2 := hb.2.1
        have h3 := hb.2.2
        linarith⟩

/-- **C2 counterexample**: with `shift_right`, slew 1, tolerance 1,
previous neighbour at 0, duplicate group of two points at time 1 and next
neighbour at 2, the spread window slides left onto the previous neighbour:
the group becomes `[0, 1]`, whose first timestamp equals (is not strictly
after) the previous neighbour's. -/
theorem C2_counterexample :
    Repair.spread_group Repair.DupStrategy.shift_right 1 1 (some 0) 1 (some 2) [0, 0] = [0, 1]
      ∧ ¬ ∀ t ∈ Repair.spread_group Repair.DupStrategy.shift_right 1 1 (some 0) 1 (some 2) [0, 0],
          (0 : ℚ) < t ∧ t < 2 := by
  have h : Repair.spread_group Repair.DupStrategy.shift_right 1 1 (some 0) 1 (some 2) [0, 0]
      = [0, 1] := by
    norm_num [Repair.spread_group, Repair.spreadWindow, Repair.spreadSpan, Repair.maxQ,
      Repair.minQ, List.range_succ]
  refine ⟨h, ?_⟩
  intro hall
  have h0 := hall 0 (by rw [h]; exact List.mem_cons_self 0 [1])
  exact lt_irrefl 0 h0.1

/-- **C2** (amended): for every strategy, positive tolerance, duplicate
group of `k ≥ 2` values between two neighbours, *provided the target span
plus a tolerance gap on each side fits between the neighbours*, the group
gets `k` strictly increasing timestamps, each strictly between the
neighbours, spanning exactly
`max(value_span / max_slew_rate, time_tolerance * (k - 1))` — hence at
least both lower bounds of the claim.  Without the room proviso the window
clamps can push the group onto a neighbour (see the counterexample). -/
theorem C2_spread_strictly_between (strat : Repair.DupStrategy)
    (slew tol p origin n : ℚ) (vs : List ℚ)
    (htol : 0 < tol) (hk : 2 ≤ vs.length)
    (hroom : max ((Repair.maxQ vs - Repair.minQ vs) / slew) (tol * ((vs.length : ℚ) - 1))
        + 2 * tol ≤ n - p) :
    (Repair.spread_group strat slew tol (some p) origin (some n) vs).length = vs.length ∧
      List.Chain' (· < ·) (Repair.spread_group strat slew tol (some p) origin (some n) vs) ∧
      (∀ t ∈ Repair.spread_group strat slew tol (some p) origin (some n) vs, p < t ∧ t < n) ∧
      (Repair.spread_group strat slew tol (some p) origin (some n) vs).head?.getD 0
          + max ((Repair.maxQ vs - Repair.minQ vs) / slew) (tol * ((vs.length : ℚ) - 1))
        = (Repair.spread_group strat slew tol (some p) origin (some n) vs).getLast?.getD 0 := by
  obtain ⟨a, heq, hlo, hhi⟩ := spread_group_window strat slew tol p origin n vs htol hk hroom
  rw [heq]
  have H := progressionFacts vs.length hk a
    (max ((Repair.maxQ vs - Repair.minQ vs) / slew) (tol * ((vs.length : ℚ) - 1)))
    p n tol htol (le_max_right _ _) hlo hhi
  exact ⟨by simp, H.1, H.2.1, H.2.2⟩

/-- Witness for `C2_spread_strictly_between`: a two-point duplicate group
at time 1 with neighbours 0 and 4, slew 1, tolerance 1. -/
theorem C2_spread_strictly_between_witness :
    ((0 : ℚ) < 1 ∧ 2 ≤ [(0 : ℚ), 0].length ∧
      max ((Repair.maxQ [(0 : ℚ), 0] - Repair.minQ [(0 : ℚ), 0]) / 1)
          ((1 : ℚ) * (([(0 : ℚ), 0].length : ℚ) - 1)) + 2 * 1 ≤ 4 - 0) ∧
      (∀ t ∈ Repair.spread_group Repair.DupStrategy.center 1 1 (some 0) 1 (some 4) [0, 0],
        (0 : ℚ) < t ∧ t < 4) :=
  ⟨⟨by norm_num, by norm_num, by norm_num [Repair.maxQ, Repair.minQ]⟩,
    (C2_spread_strictly_between Repair.DupStrategy.center 1 1 0 1 4 [0, 0]
      (by norm_num) (by norm_num) (by norm_num [Repair.maxQ, Repair.minQ])).2.2.1⟩

/-! ## C5: `repair_time_reversals("sort")` -/

/-- `f"{0.9999996:.6g}"` rounds up to `"1"`. -/
theorem sigFmt6_near_one_eval : sigFmt 6 ((9999996 : ℚ) / 10000000) = "1" :=
  (sigFmt_pos_eq_of (e := -1) (n := 1000000) (by norm_num) (by norm_num [pow10])
    (by norm_num [pow10]) (by norm_num [pow10]) (by norm_num [pow10])).trans (by decide)

/-- `parse_reference_style("-1e-7")` is the decimal style: the SI and
scientific regexes admit only an optional leading `+`, so the minus sign
falls through to the plain-decimal branch. -/
theorem parse_ref_neg_sci_eval : Fmt.parse_reference_style "-1e-7" = Fmt.RefStyle.decimal := by
  norm_num [Fmt.parse_reference_style,
    show stripWs ['-', '1', 'e', '-', '7'] = ['-', '1', 'e', '-', '7'] from by decide,
    show siMatchAnchored Fmt.siSuffixClass ['-', '1', 'e', '-', '7'] = none from by decide,
    show sciMatchAnchored ['-', '1', 'e', '-', '7'] = none from by decide,
    parseFloat_eq_some (show parseFloatRep (String.mk ['-', '1', 'e', '-', '7'])
      = some (-1, -7) from by decide), pow10]
  decide

/-- `parse_reference_style("999.9997m")` is the SI style with suffix `m`. -/
theorem parse_ref_si_m_eval : Fmt.parse_reference_style "999.9997m" = Fmt.RefStyle.si 'm' := by
  norm_num [Fmt.parse_reference_style,
    show stripWs ['9', '9', '9', '.', '9', '9', '9', '7', 'm']
      = ['9', '9', '9', '.', '9', '9', '9', '7', 'm'] from by decide,
    show siMatchAnchored Fmt.siSuffixClass ['9', '9', '9', '.', '9', '9', '9', '7', 'm']
      = some (['9', '9', '9', '.', '9', '9', '9', '7'], 'm') from by decide,
    parseFloat_eq_some (show parseFloatRep (String.mk ['9', '9', '9', '.', '9', '9', '9', '7'])
      = some (9999997, -4) from by decide), pow10]
  decide

/-- Formatting `0.9999996` like the decimal-style reference `"-1e-7"`
yields `f"{value:g}"` = `"1"` (six significant digits round up). -/
theorem format_like_ref_decimal_eval :
    Fmt.format_like_reference ((9999996 : ℚ) / 10000000) "-1e-7" = "1" := by
  unfold Fmt.format_like_reference
  rw [parse_ref_neg_sci_eval]
  dsimp only
  rw [sigFmt6_near_one_eval]
  rw [if_neg (by decide)]

/-- Formatting `0.9999997` like the SI-style reference `"999.9997m"`
keeps the suffix and the full 12-digit mantissa: `"999.9997m"`. -/
theorem format_like_ref_si_m_eval :
    Fmt.format_like_reference ((9999997 : ℚ) / 10000000) "999.9997m" = "999.9997m" := by
  unfold Fmt.format_like_reference
  rw [parse_ref_si_m_eval]
  dsimp only
  unfold Fmt.format_si
  rw [if_neg (by norm_num)]
  dsimp only
  have hlk : Fmt.siLookup (String.mk ['m']) = some (pow10 (-3)) := rfl
  rw [hlk]
  dsimp only
  unfold Fmt.format_with_suffix
  rw [roundHalfEven_eq_of (n := 1000) (by norm_num [pow10]) (by norm_num [pow10])]
  rw [if_neg (by norm_num [pow10, abs_of_nonneg, abs_of_nonpos])]
  unfold Fmt.format_significant
  rw [if_neg (by norm_num [pow10])]
  have hsg : sigFmt 12 ((9999997 : ℚ) / 10000000 / pow10 (-3)) = "999.9997" :=
    (sigFmt_pos_eq_of (e := 2) (n := 999999700000) (by norm_num [pow10]) (by norm_num [pow10])
      (by norm_num [pow10]) (by norm_num [pow10]) (by norm_num [pow10])).trans (by decide)
  rw [hsg]
  decide

/-- **C5 counterexample**: the document `[("0", abs), ("999.9997m", abs),
("-1e-7", rel)]` has one time reversal.  `repair_time_reversals("sort")`
orders the intended times correctly, but `_rebuild_data` re-renders each
time string: the relative point's new delta `0.9999996` is formatted like
its decimal-style reference `"-1e-7"` to 6 significant digits, giving
`"1"`, which overshoots the following absolute point at `0.9999997` — the
repaired document again has the reversal `(1, 2)`. -/
theorem C5_counterexample :
    Repair.find_time_reversals (pow10 (-15))
        (Pwl.timestamps (Repair.repair_time_reversals_sort
          { points := [Pwl.mkPwlPoint "0" "0" false,
                       Pwl.mkPwlPoint "999.9997m" "0" false,
                       Pwl.mkPwlPoint "-1e-7" "0" true] } (pow10 (-15))))
      = [(1, 2)] := by
  have hv0 : (Pwl.mkPwlPoint "0" "0" false).time_value = ((0 : ℤ) : ℚ) * pow10 0 :=
    mk_time_value_eval "0" false (by decide)
  have hv1 : (Pwl.mkPwlPoint "999.9997m" "0" false).time_value
      = ((9999997 : ℤ) : ℚ) * pow10 (-7) := mk_time_value_eval "0" false (by decide)
  have hv2 : (Pwl.mkPwlPoint "-1e-7" "0" true).time_value
      = ((-1 : ℤ) : ℚ) * pow10 (-7) := mk_time_value_eval "0" true (by decide)
  have hts : Pwl.timestamps { points := [Pwl.mkPwlPoint "0" "0" false,
      Pwl.mkPwlPoint "999.9997m" "0" false, Pwl.mkPwlPoint "-1e-7" "0" true] }
      = [0, (9999997 : ℚ) / 10000000, (9999996 : ℚ) / 10000000] := by
    norm_num [Pwl.timestamps, Pwl.absTimesFrom, Pwl.pointAbsTime, hv0, hv1, hv2,
      mk_is_relative, pow10]
  have hrev0 : Repair.find_time_reversals (pow10 (-15))
      [0, (9999997 : ℚ) / 10000000, (9999996 : ℚ) / 10000000] = [(1, 2)] := by
    norm_num [Repair.find_time_reversals, Repair.reversalsAux, pow10]
  have hsp : Repair.sortedPairs { points := [Pwl.mkPwlPoint "0" "0" false,
      Pwl.mkPwlPoint "999.9997m" "0" false, Pwl.mkPwlPoint "-1e-7" "0" true] }
      = [(0, Pwl.mkPwlPoint "0" "0" false),
         ((9999996 : ℚ) / 10000000, Pwl.mkPwlPoint "-1e-7" "0" true),
         ((9999997 : ℚ) / 10000000, Pwl.mkPwlPoint "999.9997m" "0" false)] := by
    unfold Repair.sortedPairs
    rw [hts]
    norm_num [List.insertionSort, List.orderedInsert, List.zip_cons_cons, List.zip_nil_right]
  unfold Repair.repair_time_reversals_sort
  rw [hts, hrev0]
  rw [if_neg (by decide)]
  simp only [hsp, List.map_cons, List.map_nil]
  unfold Repair.rebuild_data
  rw [if_neg (by exact List.cons_ne_nil _ _)]
  have hstr0 : (Pwl.mkPwlPoint "0" "0" false).time_str = "0" := by decide
  have hstr1 : (Pwl.mkPwlPoint "999.9997m" "0" false).time_str = "999.9997m" := by decide
  have hstr2 : (Pwl.mkPwlPoint "-1e-7" "0" true).time_str = "-1e-7" := by decide
  have hft0 : Fmt.format_time 0 (some "0") = "0" := by
    show Fmt.format_like_reference 0 "0" = "0"
    norm_num [Fmt.format_like_reference, Fmt.suggest_optimal, Fmt.suggest_optimal_nonneg,
      show Fmt.parse_reference_style "0" = Fmt.RefStyle.zero from by decide]
  have hft1 : Fmt.format_time (max ((9999996 : ℚ) / 10000000 - 0) 0) (some "-1e-7") = "1" := by
    rw [show max ((9999996 : ℚ) / 10000000 - 0) 0 = (9999996 : ℚ) / 10000000 from by norm_num]
    exact format_like_ref_decimal_eval
  have hft2 : Fmt.format_time ((9999997 : ℚ) / 10000000) (some "999.9997m") = "999.9997m" :=
    format_like_ref_si_m_eval
  simp only [List.zip_cons_cons, List.zip_nil_right, Repair.rebuildGo, mk_is_relative,
    hstr0, hstr1, hstr2]
  rw [if_pos (show True ∨ True from by decide),
      if_neg (show ¬ ((0 : ℕ) + 1 = 0 ∨ true = false) from by decide),
      if_pos (show (0 : ℕ) + 1 + 1 = 0 ∨ True from by decide)]
  rw [hft0, hft1, hft2]
  have hw0 : (Pwl.mkPwlPoint "0" ((Pwl.mkPwlPoint "0" "0" false).value_str) false).time_value
      = ((0 : ℤ) : ℚ) * pow10 0 := mk_time_value_eval _ false (by decide)
  have hw1 : (Pwl.mkPwlPoint "1" ((Pwl.mkPwlPoint "-1e-7" "0" true).value_str) true).time_value
      = ((1 : ℤ) : ℚ) * pow10 0 := mk_time_value_eval _ true (by decide)
  have hw2 : (Pwl.mkPwlPoint "999.9997m"
        ((Pwl.mkPwlPoint "999.9997m" "0" false).value_str) false).time_value
      = ((9999997 : ℤ) : ℚ) * pow10 (-7) := mk_time_value_eval _ false (by decide)
  norm_num [Pwl.timestamps, Pwl.absTimesFrom, Pwl.pointAbsTime, mk_is_relative,
    hw0, hw1, hw2, Repair.find_time_reversals, Repair.reversalsAux, pow10]

/-- Over a non-decreasing timestamp list, the reversal scan finds nothing
(for any non-negative epsilon and any starting index). -/
theorem reversalsAux_eq_nil (eps : ℚ) (heps : 0 ≤ eps) :
    ∀ ts : List ℚ, List.Chain' (· ≤ ·) ts → ∀ i, Repair.reversalsAux eps i ts = [] := by
  intro ts
  induction ts with
  | nil => intro _ i; rfl
  | cons a rest ih =>
    intro hch i
    cases rest with
    | nil => rfl
    | cons b rest2 =>
      have hab : a ≤ b := (List.chain'_cons.mp hch).1
      unfold Repair.reversalsAux
      rw [if_neg (by intro hcon; linarith), List.nil_append]
      exact ih (List.chain'_cons.mp hch).2 (i + 1)

/-- **C5** (amended): the sorting stage of `repair_time_reversals("sort")`
is sound — for every document and non-negative epsilon, the reversal scan
over the sorted pairs' intended times reports nothing.  The unamended
claim fails only through `_rebuild_data`'s re-formatting of the time
strings, which can perturb the re-derived times (see the counterexample). -/
theorem C5_sorted_no_reversals (d : Pwl.PwlData) (eps : ℚ) (heps : 0 ≤ eps) :
    Repair.find_time_reversals eps ((Repair.sortedPairs d).map Prod.fst) = [] := by
  unfold Repair.find_time_reversals
  split
  · rfl
  · have hs : List.Sorted (fun a b : ℚ × Pwl.PwlPoint => a.1 ≤ b.1) (Repair.sortedPairs d) :=
      List.sorted_insertionSort _ _
    have hp : List.Pairwise (· ≤ ·) ((Repair.sortedPairs d).map Prod.fst) :=
      List.pairwise_map.mpr hs
    exact reversalsAux_eq_nil eps heps _ hp.chain' 0

/-- Witness for `C5_sorted_no_reversals`: an out-of-order two-point
document at epsilon `0`. -/
theorem C5_sorted_no_reversals_witness :
    (0 : ℚ) ≤ 0 ∧
      Repair.find_time_reversals 0
        ((Repair.sortedPairs { points := [Pwl.mkPwlPoint "2" "0" false,
          Pwl.mkPwlPoint "1" "0" false] }).map Prod.fst) = [] :=
  ⟨le_refl 0, C5_sorted_no_reversals
    { points := [Pwl.mkPwlPoint "2" "0" false, Pwl.mkPwlPoint "1" "0" false] } 0 (le_refl 0)⟩

/-! ## C8: `generate_square_wave` Scenario D -/

/-- Scenario D's sample list: with `edge_ppm = 0` no ramp points are
emitted, so one cycle yields three samples. -/
theorem square_samples_eval :
    Square.generate_samples
        { low_level := 0, high_level := 5, period := pow10 (-6), duty_cycle := 50,
          cycles := 1, start_time := 0, initial_state_high := false, edge_ppm := 0,
          prefer_relative := false }
      = [(0, 0), (1 / 2000000, 0), (1 / 1000000, 5)] := by
  norm_num [Square.generate_samples, Square.oneCycle, Square.append_stage, pow10,
    List.range_succ, List.getLastD, max_def, min_def]

/-- `suggest_optimal(0) = "0"`. -/
theorem suggest_optimal_zero_eval : Fmt.suggest_optimal 0 = "0" := by
  norm_num [Fmt.suggest_optimal, Fmt.suggest_optimal_nonneg]

/-- `suggest_optimal(5e-7) = "500n"`. -/
theorem suggest_optimal_500n_eval : Fmt.suggest_optimal ((1 : ℚ) / 2000000) = "500n" := by
  unfold Fmt.suggest_optimal
  rw [if_neg (by norm_num)]
  unfold Fmt.suggest_optimal_nonneg
  rw [if_neg (by norm_num), if_neg (by norm_num [pow10]), if_pos (by norm_num [pow10])]
  have hsg : sigFmt 9 ((1 : ℚ) / 2000000 / pow10 (-9)) = "500" :=
    (sigFmt_pos_eq_of (e := 2) (n := 500000000) (by norm_num [pow10]) (by norm_num [pow10])
      (by norm_num [pow10]) (by norm_num [pow10]) (by norm_num [pow10])).trans (by decide)
  rw [hsg]
  decide

/-- `suggest_optimal(1e-6) = "1u"`. -/
theorem suggest_optimal_1u_eval : Fmt.suggest_optimal ((1 : ℚ) / 1000000) = "1u" := by
  unfold Fmt.suggest_optimal
  rw [if_neg (by norm_num)]
  unfold Fmt.suggest_optimal_nonneg
  rw [if_neg (by norm_num), if_neg (by norm_num [pow10]), if_neg (by norm_num [pow10]),
    if_pos (by norm_num [pow10])]
  have hsg : sigFmt 9 ((1 : ℚ) / 1000000 / pow10 (-6)) = "1" :=
    (sigFmt_pos_eq_of (e := 0) (n := 100000000) (by norm_num [pow10]) (by norm_num [pow10])
      (by norm_num [pow10]) (by norm_num [pow10]) (by norm_num [pow10])).trans (by decide)
  rw [hsg]
  decide

/-- `suggest_optimal(5) = "5"`. -/
theorem suggest_optimal_five_eval : Fmt.suggest_optimal (5 : ℚ) = "5" := by
  unfold Fmt.suggest_optimal
  rw [if_neg (by norm_num)]
  unfold Fmt.suggest_optimal_nonneg
  rw [if_neg (by norm_num), if_neg (by norm_num [pow10]), if_neg (by norm_num [pow10]),
    if_neg (by norm_num [pow10]), if_neg (by norm_num [pow10]), if_pos (by norm_num)]
  have hsg : sigFmt 9 (5 : ℚ) = "5" :=
    (sigFmt_pos_eq_of (e := 0) (n := 500000000) (by norm_num [pow10]) (by norm_num [pow10])
      (by norm_num [pow10]) (by norm_num [pow10]) (by norm_num [pow10])).trans (by decide)
  rw [hsg]
  decide

/-- Formatting `0` like the zero-style reference `"0"` gives `"0"`. -/
theorem format_like_ref_zero_zero_eval : Fmt.format_like_reference 0 "0" = "0" := by
  unfold Fmt.format_like_reference
  rw [show Fmt.parse_reference_style "0" = Fmt.RefStyle.zero from by decide]
  exact suggest_optimal_zero_eval

/-- Formatting `5` like the zero-style reference `"0"` gives `"5"`. -/
theorem format_like_ref_five_zero_eval : Fmt.format_like_reference 5 "0" = "5" := by
  unfold Fmt.format_like_reference
  rw [show Fmt.parse_reference_style "0" = Fmt.RefStyle.zero from by decide]
  exact suggest_optimal_five_eval

/-- **C8** (amended): Scenario D's call — low 0, high 5, period `1e-6`,
duty 50, one cycle, `edge_ppm = 0`, other parameters default — succeeds
with an empty warning list and an ideal step with *three* samples per
cycle, `[("0", "0"), ("500n", "0"), ("1u", "5")]`, all absolute: the
initial point, the end of the low plateau, and the end of the cycle.  No
ramp points are emitted (the claimed count of exactly 4 samples per cycle
is wrong). -/
theorem C8_square_wave :
    Square.generate_square_wave
        { low_level := 0, high_level := 5, period := pow10 (-6), duty_cycle := 50,
          cycles := 1, start_time := 0, initial_state_high := false, edge_ppm := 0,
          prefer_relative := false }
      = Except.ok
          ({ points := [Pwl.mkPwlPoint "0" "0" false, Pwl.mkPwlPoint "500n" "0" false,
              Pwl.mkPwlPoint "1u" "5" false],
             default_format := "absolute" }, []) := by
  have hval : Square.validate_config
      { low_level := 0, high_level := 5, period := pow10 (-6), duty_cycle := 50,
        cycles := 1, start_time := 0, initial_state_high := false, edge_ppm := 0,
        prefer_relative := false } = [] := by
    norm_num [Square.validate_config, pow10]
  have hw : Square.derive_warnings
      { low_level := 0, high_level := 5, period := pow10 (-6), duty_cycle := 50,
        cycles := 1, start_time := 0, initial_state_high := false, edge_ppm := 0,
        prefer_relative := false } = [] := by
    norm_num [Square.derive_warnings, pow10]
  unfold Square.generate_square_wave
  rw [hval, hw, square_samples_eval]
  unfold Square.build_pwl_data
  have hvs0 : (Pwl.mkPwlPoint "0" "0" false).value_str = "0" := by decide
  have hvs1 : (Pwl.mkPwlPoint "500n" "0" false).value_str = "0" := by decide
  simp only [Square.buildPoints, Option.map_some', Option.map_none']
  norm_num [Fmt.format_time, Fmt.format_value, suggest_optimal_zero_eval, suggest_optimal_500n_eval, suggest_optimal_1u_eval,
    hvs0, hvs1, format_like_ref_zero_zero_eval, format_like_ref_five_zero_eval]

/-- **C8 counterexample**: the Scenario D configuration generates three
samples for its single cycle, not four. -/
theorem C8_counterexample :
    (Square.generate_samples
        { low_level := 0, high_level := 5, period := pow10 (-6), duty_cycle := 50,
          cycles := 1, start_time := 0, initial_state_high := false, edge_ppm := 0,
          prefer_relative := false }).length = 3 ∧
      (Square.generate_samples
        { low_level := 0, high_level := 5, period := pow10 (-6), duty_cycle := 50,
          cycles := 1, start_time := 0, initial_state_high := false, edge_ppm := 0,
          prefer_relative := false }).length ≠ 4 := by
  rw [square_samples_eval]
  exact ⟨rfl, by norm_num⟩

/-! ## C6: smart-insertion time placement -/

/-- `firstMargin` only returns members of its candidate list. -/
theorem firstMargin_mem {lo hi c : ℚ} :
    ∀ l : List ℚ, Ins.firstMargin lo hi l = some c → c ∈ l := by
  intro l
  induction l with
  | nil => intro h; exact absurd h (by simp [Ins.firstMargin])
  | cons a rest ih =>
    intro h
    unfold Ins.firstMargin at h
    split at h
    · exact (Option.some.injEq _ _ ▸ h) ▸ List.mem_cons_self a rest
    · exact List.mem_cons_of_mem a (ih h)

/-- Every clean candidate lies strictly inside the bounds. -/
theorem cleanCandidates_mem_bounds {v lo hi c : ℚ}
    (h : c ∈ Ins.cleanCandidates v lo hi) : lo < c ∧ c < hi := by
  unfold Ins.cleanCandidates at h
  split at h
  · simp only [List.mem_flatMap, List.mem_filterMap] at h
    obtain ⟨off, _, m, _, hm⟩ := h
    split at hm
    · cases hm
      assumption
    · exact absurd hm (by simp)
  · exact absurd h (List.not_mem_nil c)

/-- The value snapped by the clean-candidate phase lies strictly inside the
bounds. -/
theorem maybeRoundChoice_bounds {v lower upper c : ℚ}
    (h : Ins.maybeRoundChoice v lower upper = some c) :
    min lower upper < c ∧ c < max lower upper := by
  unfold Ins.maybeRoundChoice at h
  have hmem := firstMargin_mem _ h
  rw [List.Perm.mem_iff (List.perm_insertionSort _ _)] at hmem
  exact cleanCandidates_mem_bounds hmem

/-- A successful SI-grid fallback returns the rendering of a scaled
candidate strictly inside the bounds. -/
theorem fallbackLoop_some {lo hi conv mult : ℚ} {ref s : String} :
    ∀ l : List ℚ, Ins.fallbackLoop lo hi conv mult ref l = some s →
      ∃ cand, lo < cand * mult ∧ cand * mult < hi ∧
        s = Ins.format_time_like_ref (cand * mult) ref := by
  intro l
  induction l with
  | nil => intro h; exact absurd h (by simp [Ins.fallbackLoop])
  | cons a rest ih =>
    intro h
    unfold Ins.fallbackLoop at h
    split at h
    · exact ih h
    · dsimp only at h
      split at h
      · refine ⟨a, ?_, ?_, ?_⟩
        · exact (by assumption : lo < a * mult ∧ a * mult < hi).1
        · exact (by assumption : lo < a * mult ∧ a * mult < hi).2
        · exact (Option.some.injEq _ _ ▸ h).symm
      · exact ih h

/-- **C6** (amended): whenever `_maybe_round_insert` returns a time string,
that string renders a value lying strictly between the two bounds — either
the clean snapped candidate (rendered with `suggest_optimal`) or a scaled
fallback candidate (rendered like the reference).  The unamended claim
fails at the rendering step and on the no-snap path: the returned string's
*parsed* value can land on a neighbour (see the counterexample). -/
theorem C6_round_insert_value_between (v lower upper : ℚ) (ref : String) (s : String)
    (h : Ins.maybe_round_insert v lower upper ref = some s) :
    ∃ c, min lower upper < c ∧ c < max lower upper ∧
      (s = Fmt.suggest_optimal c ∨ s = Ins.format_time_like_ref c ref) := by
  unfold Ins.maybe_round_insert at h
  dsimp only at h
  cases hc : Ins.maybeRoundChoice v lower upper with
  | some c =>
    rw [hc] at h
    refine ⟨c, (maybeRoundChoice_bounds hc).1, (maybeRoundChoice_bounds hc).2, Or.inl ?_⟩
    exact (Option.some.injEq _ _ ▸ h).symm
  | none =>
    rw [hc] at h
    cases hsi : Ins.insSiSearch Fmt.siSuffixClass (stripWs ref.toList) with
    | none =>
      rw [hsi] at h
      exact absurd h (by simp)
    | some r =>
      rw [hsi] at h
      obtain ⟨cand, h1, h2, h3⟩ := fallbackLoop_some _ h
      exact ⟨cand * Ins.fullSiMult r.2, h1, h2, Or.inr h3⟩

/-- Witness for `C6_round_insert_value_between`: inserting at `15` between
`10` and `30` snaps to the clean candidate `20`. -/
theorem C6_round_insert_value_between_witness :
    Ins.maybe_round_insert 15 10 30 "x" = some "20" ∧
      ∃ c, min (10 : ℚ) 30 < c ∧ c < max (10 : ℚ) 30 ∧
        ("20" = Fmt.suggest_optimal c ∨ "20" = Ins.format_time_like_ref c "x") := by
  have hde : decExp (15 : ℚ) = 1 := decExp_eq_of (by norm_num [pow10]) (by norm_num [pow10])
  have hcc : Ins.cleanCandidates 15 10 30 = [20, 25, 20, 20] := by
    norm_num [Ins.cleanCandidates, Ins.cleanMults, hde, pow10, List.filterMap_cons,
      List.filterMap_nil]
  have hsort : List.insertionSort (fun a b => |a - (15 : ℚ)| ≤ |b - (15 : ℚ)|) [20, 25, 20, 20]
      = [20, 20, 20, 25] := by
    norm_num [List.insertionSort, List.orderedInsert, abs_of_nonneg, abs_of_nonpos]
  have hfm : Ins.firstMargin 10 30 [20, 20, 20, 25] = some 20 := by
    norm_num [Ins.firstMargin, abs_of_nonneg, abs_of_nonpos, min_def]
  have hmrc : Ins.maybeRoundChoice 15 10 30 = some 20 := by
    unfold Ins.maybeRoundChoice
    rw [show min (10 : ℚ) 30 = 10 from by norm_num, show max (10 : ℚ) 30 = 30 from by norm_num]
    dsimp only
    rw [hcc, hsort, hfm]
  have hso20 : Fmt.suggest_optimal 20 = "20" := by
    unfold Fmt.suggest_optimal
    rw [if_neg (by norm_num)]
    unfold Fmt.suggest_optimal_nonneg
    rw [if_neg (by norm_num), if_neg (by norm_num [pow10]), if_neg (by norm_num [pow10]),
      if_neg (by norm_num [pow10]), if_neg (by norm_num [pow10]), if_pos (by norm_num)]
    have hsg : sigFmt 9 (20 : ℚ) = "20" :=
      (sigFmt_pos_eq_of (e := 1) (n := 200000000) (by norm_num [pow10]) (by norm_num [pow10])
        (by norm_num [pow10]) (by norm_num [pow10]) (by norm_num [pow10])).trans (by decide)
    rw [hsg]
    decide
  have hmri : Ins.maybe_round_insert 15 10 30 "x" = some "20" := by
    unfold Ins.maybe_round_insert
    rw [hmrc]
    dsimp only
    rw [hso20]
  exact ⟨hmri, C6_round_insert_value_between 15 10 30 "x" "20" hmri⟩


/-- In the `1e-13`-wide window of the C6 scenario no clean candidate
survives the strict bound check. -/
theorem maybeRoundChoice_tiny_gap_none :
    Ins.maybeRoundChoice ((20000001 : ℚ) / 20000000000000) (1 / 1000000)
      (10000001 / 10000000000000) = none := by
  have hde : decExp ((20000001 : ℚ) / 20000000000000) = -6 :=
    decExp_eq_of (by norm_num [pow10, abs_of_nonneg]) (by norm_num [pow10, abs_of_nonneg])
  have hcc : Ins.cleanCandidates ((20000001 : ℚ) / 20000000000000) (1 / 1000000)
      (10000001 / 10000000000000) = [] := by
    norm_num [Ins.cleanCandidates, Ins.cleanMults, hde, pow10, List.filterMap_cons,
      List.filterMap_nil]
  unfold Ins.maybeRoundChoice
  rw [show min ((1 : ℚ) / 1000000) (10000001 / 10000000000000) = 1 / 1000000 from by
        norm_num [min_def],
      show max ((1 : ℚ) / 1000000) (10000001 / 10000000000000) = 10000001 / 10000000000000 from by
        norm_num [max_def]]
  dsimp only
  rw [hcc]
  norm_num [List.insertionSort, Ins.firstMargin]


/-- `_maybe_round_insert` when the clean-candidate phase fails: the
SI-suffix fallback over the three rounded conversions. -/
theorem maybe_round_insert_fallback (v l u : ℚ) (ref : String)
    (h : Ins.maybeRoundChoice v l u = none) :
    Ins.maybe_round_insert v l u ref
      = match Ins.insSiSearch Fmt.siSuffixClass (stripWs ref.toList) with
        | some (_, p) =>
          Ins.fallbackLoop (min l u) (max l u) (v / Ins.fullSiMult p) (Ins.fullSiMult p) ref
            [((roundHalfEven (v / Ins.fullSiMult p) : ℤ) : ℚ),
             ((roundHalfEven (v / Ins.fullSiMult p * 2) : ℤ) : ℚ) / 2,
             ((roundHalfEven (v / Ins.fullSiMult p * 10) : ℤ) : ℚ) / 10]
        | none => none := by
  unfold Ins.maybe_round_insert
  rw [h]

/-- In the C6 scenario the fallback candidates all collapse to `1`, whose
scaled value sits on the lower bound, so `_maybe_round_insert` fails. -/
theorem round_insert_tiny_gap_none :
    Ins.maybe_round_insert ((20000001 : ℚ) / 20000000000000) (1 / 1000000)
      (10000001 / 10000000000000) "1u" = none := by
  rewrite [maybe_round_insert_fallback _ _ _ _ maybeRoundChoice_tiny_gap_none]
  rewrite [show stripWs ("1u" : String).toList = ['1', 'u'] from by decide,
      show Ins.insSiSearch Fmt.siSuffixClass ['1', 'u'] = some (['1'], 'u') from by decide]
  dsimp only
  rewrite [show Ins.fullSiMult 'u' = 1 / 1000000 from by
        norm_num [Ins.fullSiMult, pow10, show ('u' = 'f') = False from by simp,
          show ('u' = 'p') = False from by simp, show ('u' = 'n') = False from by simp]]
  rewrite [show (20000001 : ℚ) / 20000000000000 / (1 / 1000000) = 20000001 / 20000000 from by
        norm_num]
  rewrite [roundHalfEven_eq_of (n := 1) (by norm_num) (by norm_num),
      roundHalfEven_eq_of (n := 2) (by norm_num) (by norm_num),
      roundHalfEven_eq_of (n := 10) (by norm_num) (by norm_num)]
  rewrite [show ((1 : ℤ) : ℚ) = 1 from by norm_num,
      show ((2 : ℤ) : ℚ) / 2 = 1 from by norm_num,
      show ((10 : ℤ) : ℚ) / 10 = 1 from by norm_num]
  rewrite [show min ((1 : ℚ) / 1000000) (10000001 / 10000000000000) = 1 / 1000000 from by
        norm_num [min_def],
      show max ((1 : ℚ) / 1000000) (10000001 / 10000000000000) = 10000001 / 10000000000000 from by
        norm_num [max_def]]
  have hstep : ∀ rest, Ins.fallbackLoop (1 / 1000000) (10000001 / 10000000000000)
      (20000001 / 20000000) (1 / 1000000) "1u" (1 :: rest)
      = Ins.fallbackLoop (1 / 1000000) (10000001 / 10000000000000)
        (20000001 / 20000000) (1 / 1000000) "1u" rest := by
    intro rest
    unfold Ins.fallbackLoop
    rewrite [if_neg (by norm_num [pow10, abs_of_nonneg, abs_of_nonpos])]
    dsimp only
    rewrite [if_neg (by norm_num)]
    cases rest with
    | nil => rfl
    | cons a t => rfl
  rewrite [hstep, hstep, hstep]
  rfl

/-- The intended midpoint `1.00000005e-6` renders like `"1u"`'s SI style
as `"1u"`: six significant digits round the conversion to `1`. -/
theorem format_like_ref_tiny_gap_eval :
    Ins.format_time_like_ref ((20000001 : ℚ) / 20000000000000) "1u" = "1u" := by
  have hr1 : roundHalfEven ((20000001 : ℚ) / 20000000) = 1 :=
    roundHalfEven_eq_of (by norm_num) (by norm_num)
  have hsg : sigFmt 6 ((20000001 : ℚ) / 20000000) = "1" :=
    (sigFmt_pos_eq_of (e := 0) (n := 100000) (by norm_num) (by norm_num [pow10])
      (by norm_num [pow10]) (by norm_num [pow10]) (by norm_num [pow10])).trans (by decide)
  unfold Ins.format_time_like_ref
  rewrite [show stripWs ("1u" : String).toList = ['1', 'u'] from by decide]
  dsimp only
  rewrite [show Ins.insSiSearch Ins.stepSiClass ['1', 'u'] = some (['1'], 'u') from by decide]
  dsimp only
  rewrite [show Ins.siPfxValue 'u' = 1 / 1000000 from by
        norm_num [Ins.siPfxValue, pow10, show ('u' = 'p') = False from by simp,
          show ('u' = 'n') = False from by simp]]
  rewrite [show (20000001 : ℚ) / 20000000000000 / (1 / 1000000) = 20000001 / 20000000 from by
        norm_num]
  rewrite [hr1]
  rewrite [if_neg (by norm_num [pow10, abs_of_nonneg, abs_of_nonpos])]
  rewrite [hsg]
  decide

/-- `calculate_time_below` with a next neighbour, unfolded at variables
(kept as a definitional equation so concrete instantiations stay cheap). -/
theorem calculate_time_below_eq (cur np : Pwl.PwlPoint) :
    Ins.calculate_time_below cur (some np)
      = (let step0 := Ins.step_size cur.time_str cur.time_value
         let gap := np.time_value - cur.time_value
         let step := if step0 ≥ gap * (9 / 10) then gap * (1 / 2) else step0
         let newVal := cur.time_value + step
         match Ins.maybe_round_insert newVal (min cur.time_value np.time_value)
             (max cur.time_value np.time_value) cur.time_str with
         | some s => s
         | none =>
           let result := Ins.format_time_like_ref newVal cur.time_str
           if Fmt.is_awkward_format result then Fmt.suggest_optimal newVal else result) := rfl

/-- Evaluation scheme for `calculate_time_below` on the half-gap branch
with a failing `_maybe_round_insert` and a readable rendering. -/
theorem calc_below_result (cur np : Pwl.PwlPoint) (cv nv s0 newVal : ℚ) (res : String)
    (hcv : cur.time_value = cv) (hnv : np.time_value = nv)
    (hs0 : Ins.step_size cur.time_str cv = s0)
    (hcond : s0 ≥ (nv - cv) * (9 / 10))
    (hnew : cv + (nv - cv) * (1 / 2) = newVal)
    (hmri : Ins.maybe_round_insert newVal (min cv nv) (max cv nv) cur.time_str = none)
    (hfmt : Ins.format_time_like_ref newVal cur.time_str = res)
    (hawk : Fmt.is_awkward_format res = false) :
    Ins.calculate_time_below cur (some np) = res := by
  rewrite [calculate_time_below_eq]
  dsimp only
  rewrite [hcv, hnv, hs0]
  rewrite [if_pos hcond]
  rewrite [hnew]
  rewrite [hmri]
  dsimp only
  rewrite [hfmt, hawk]
  rewrite [if_neg (by simp : ¬ (false = true))]
  rfl

/-- **C6 counterexample**: for the current point `"1u"` with next neighbour
`"1.0000001u"` (a positive gap of `1e-13`), `calculate_time_below` returns
`"1u"` itself: the snapping and fallback phases find nothing inside the
tiny window, and the 6-significant-digit rendering of the intended
midpoint `1.00000005e-6` collapses onto the lower neighbour, so the
returned time parses to exactly the current point's time — not strictly
between the neighbours. -/
theorem C6_counterexample :
    (Ins.calculate_time_below (Pwl.mkPwlPoint "1u" "0" false)
        (some (Pwl.mkPwlPoint "1.0000001u" "0" false)) = "1u")
      ∧ Pwl.ltspice_si_parse "1u" = some ((1 : ℚ) / 1000000)
      ∧ (Pwl.mkPwlPoint "1u" "0" false).time_value = (1 : ℚ) / 1000000
      ∧ ¬ ((1 : ℚ) / 1000000 < (1 : ℚ) / 1000000) := by
  refine ⟨?_, ?_, ?_, by norm_num⟩
  case refine_2 =>
    have hp : Pwl.ltspice_si_parse "1u" = some (((1 : ℤ) : ℚ) * pow10 (-6)) :=
      ltspice_eval (by decide)
    rw [hp]
    norm_num [pow10]
  case refine_3 =>
    have hv1 : (Pwl.mkPwlPoint "1u" "0" false).time_value = ((1 : ℤ) : ℚ) * pow10 (-6) :=
      mk_time_value_eval "0" false (by decide)
    rw [hv1]
    norm_num [pow10]
  case refine_1 =>
    have hv1 : (Pwl.mkPwlPoint "1u" "0" false).time_value = ((1 : ℤ) : ℚ) * pow10 (-6) :=
      mk_time_value_eval "0" false (by decide)
    have hv1' : (Pwl.mkPwlPoint "1u" "0" false).time_value = (1 : ℚ) / 1000000 := by
      rw [hv1]; norm_num [pow10]
    have hv2 : (Pwl.mkPwlPoint "1.0000001u" "0" false).time_value
        = ((10000001 : ℤ) : ℚ) * pow10 (-13) := mk_time_value_eval "0" false (by decide)
    have hv2' : (Pwl.mkPwlPoint "1.0000001u" "0" false).time_value
        = (10000001 : ℚ) / 10000000000000 := by
      rw [hv2]; norm_num [pow10]
    have hstr : (Pwl.mkPwlPoint "1u" "0" false).time_str = "1u" := by decide
    have hss : Ins.step_size "1u" ((1 : ℚ) / 1000000) = 1 / 1000000 := by
      norm_num [Ins.step_size, Ins.siPfxValue,
        show stripWs ['1', 'u'] = ['1', 'u'] from by decide,
        show Ins.insSiSearch Ins.stepSiClass ['1', 'u'] = some (['1'], 'u') from by decide,
        parseFloat_eq_some (show parseFloatRep (String.mk ['1']) = some (1, 0) from by decide),
        pow10]
      norm_num [show ('u' = 'p') = False from by simp, show ('u' = 'n') = False from by simp]
    have hawk : Fmt.is_awkward_format "1u" = false := by
      unfold Fmt.is_awkward_format
      rewrite [show stripWs ("1u" : String).toList = ['1', 'u'] from by decide]
      dsimp only
      rewrite [show siMatchAnchored Fmt.siSuffixClass ['1', 'u'] = some (['1'], 'u') from by decide]
      dsimp only
      rewrite [parseFloat_eq_some (show parseFloatRep (String.mk ['1']) = some (1, 0) from by decide)]
      dsimp only
      rewrite [if_neg (show ¬ ((10000 : ℚ) ≤ ((1 : ℤ) : ℚ) * pow10 0) from by norm_num [pow10])]
      rfl
    refine calc_below_result _ _ ((1 : ℚ) / 1000000) ((10000001 : ℚ) / 10000000000000)
        ((1 : ℚ) / 1000000) ((20000001 : ℚ) / 20000000000000) "1u"
        hv1' hv2' ?_ (by norm_num) (by norm_num) ?_ ?_ hawk
    · rw [hstr]
      exact hss
    · rw [hstr]
      rw [show (1 : ℚ) / 1000000 ⊓ (10000001 : ℚ) / 10000000000000 = 1 / 1000000 from by
            norm_num [min_def],
          show (1 : ℚ) / 1000000 ⊔ (10000001 : ℚ) / 10000000000000
            = 10000001 / 10000000000000 from by norm_num [max_def]]
      exact round_insert_tiny_gap_none
    · rw [hstr]
      exact format_like_ref_tiny_gap_eval
